import Mathlib

/-!
Shallow embedding of the `LinguisticFeatures` package (files
`LinguisticFeatures/quita.py` and `LinguisticFeatures/biber.py`) and proofs
about its specification.

Modelling conventions:
* Python / numpy floating-point numbers are modelled by `QF`, exact rationals
  extended with `nan`, `inf` and `ninf`; float rounding is idealised away,
  but the special values produced by division by zero, square roots of
  negative numbers and averages of empty arrays are modelled faithfully.
* Python `int / int` division (which raises `ZeroDivisionError` on a zero
  denominator) is modelled by `pyDiv`, returning `Except`.
* External capabilities (nltk's `pos_tag`, `word_tokenize`, and the `re`
  module's `findall` used by the Biber engine, numpy's `sqrt`/`log`) are
  parameters of the embedding, exactly as the spec declares them external.
* Python `dict` is modelled by an association list with insert-or-overwrite
  semantics (`dictInsert`), which preserves the original insertion position
  of an overwritten key, as CPython does.
-/

namespace LingFeat

/-- Model of a numpy floating-point value: an exact rational, or one of the
special values NaN, +inf, -inf. -/
inductive QF where
  | val : ℚ → QF
  | nan : QF
  | inf : QF
  | ninf : QF
deriving DecidableEq, Repr

/-- Negation of a float value. -/
def qfNeg : QF → QF
  | .val q => .val (-q)
  | .nan => .nan
  | .inf => .ninf
  | .ninf => .inf

/-- IEEE-style addition on the float model. -/
def qfAdd : QF → QF → QF
  | .val a, .val b => .val (a + b)
  | .nan, _ => .nan
  | _, .nan => .nan
  | .inf, .ninf => .nan
  | .ninf, .inf => .nan
  | .inf, _ => .inf
  | _, .inf => .inf
  | .ninf, _ => .ninf
  | _, .ninf => .ninf

/-- Subtraction on the float model. -/
def qfSub (a b : QF) : QF := qfAdd a (qfNeg b)

/-- IEEE-style multiplication on the float model. -/
def qfMul : QF → QF → QF
  | .val a, .val b => .val (a * b)
  | .nan, _ => .nan
  | _, .nan => .nan
  | .inf, .inf => .inf
  | .inf, .ninf => .ninf
  | .ninf, .inf => .ninf
  | .ninf, .ninf => .inf
  | .inf, .val b => if 0 < b then .inf else if b < 0 then .ninf else .nan
  | .ninf, .val b => if 0 < b then .ninf else if b < 0 then .inf else .nan
  | .val a, .inf => if 0 < a then .inf else if a < 0 then .ninf else .nan
  | .val a, .ninf => if 0 < a then .ninf else if a < 0 then .inf else .nan

/-- numpy-style division on the float model: division by zero yields
NaN (0/0) or a signed infinity, it raises no exception.  Signed zeros are
not modelled (0 is treated as +0). -/
def qfDiv : QF → QF → QF
  | .val a, .val b =>
      if b = 0 then (if a = 0 then .nan else if 0 < a then .inf else .ninf)
      else .val (a / b)
  | .nan, _ => .nan
  | _, .nan => .nan
  | .inf, .inf => .nan
  | .inf, .ninf => .nan
  | .ninf, .inf => .nan
  | .ninf, .ninf => .nan
  | .inf, .val b => if 0 ≤ b then .inf else .ninf
  | .ninf, .val b => if 0 ≤ b then .ninf else .inf
  | .val _, .inf => .val 0
  | .val _, .ninf => .val 0

/-- The external real-valued math routines used by the source (numpy's
`sqrt`, `log2`, `log10`); their values on positive rationals are
parameters of the embedding. -/
structure MathOps where
  sqrt : ℚ → ℚ
  log2 : ℚ → ℚ
  log10 : ℚ → ℚ

/-- numpy `sqrt` lifted to the float model: negative arguments give NaN. -/
def qfSqrt (ops : MathOps) : QF → QF
  | .val q => if q < 0 then .nan else .val (ops.sqrt q)
  | .nan => .nan
  | .inf => .inf
  | .ninf => .nan

/-- numpy `log10` lifted to the float model: `log10 0 = -inf`, negative
arguments give NaN. -/
def qfLog10 (ops : MathOps) : QF → QF
  | .val q => if 0 < q then .val (ops.log10 q) else if q = 0 then .ninf else .nan
  | .nan => .nan
  | .inf => .inf
  | .ninf => .nan

/-- numpy sum of a list of float values (`np.sum`), starting from 0. -/
def qfSum (l : List QF) : QF := l.foldl qfAdd (QF.val 0)

/-- numpy `np.average` of a list of exact values: NaN on an empty list
(numpy emits a warning and returns NaN, it does not raise). -/
def npAverage (l : List ℚ) : QF :=
  if l.length = 0 then .nan else .val (l.sum / l.length)

/-- The exceptions the embedded code can signal.  `degenerateInputError` is
modelled from the spec: §7 posits a `DegenerateInputError` class; the source
files define no such class, and no translated function ever produces this
constructor.  It exists only so that the spec's claim about it can be
stated and compared against the code's actual behaviour. -/
inductive PyErr where
  | zeroDivisionError
  | indexError
  | valueError
  | degenerateInputError
deriving DecidableEq, Repr

deriving instance DecidableEq for Except

/-- Python's scalar division (`int / int`, `float / float`): raises
`ZeroDivisionError` on a zero denominator, otherwise exact. -/
def pyDiv (a b : ℚ) : Except PyErr ℚ :=
  if b = 0 then .error .zeroDivisionError else .ok (a / b)

/-- Python `int()` truncation toward zero of a rational. -/
def pyTrunc (q : ℚ) : ℤ :=
  if q < 0 then -(⌊-q⌋) else ⌊q⌋

/-- Python `int()` applied to a float value: special values raise. -/
def pyInt : QF → Except PyErr ℤ
  | .val q => .ok (pyTrunc q)
  | _ => .error .valueError

/-- Python `dict` assignment `d[k] = v`: overwrites in place if the key is
present (keeping its original insertion position), else appends. -/
def dictInsert {α : Type} (d : List (String × α)) (k : String) (v : α) :
    List (String × α) :=
  if d.any (fun kv => kv.1 = k) then
    d.map (fun kv => if kv.1 = k then (k, v) else kv)
  else d ++ [(k, v)]

/-- Python `dict` lookup `d[k]` (as an `Option`). -/
def dictGet {α : Type} (d : List (String × α)) (k : String) : Option α :=
  (d.find? (fun kv => kv.1 = k)).map Prod.snd

/-- List element access that raises `IndexError` out of bounds, the
behaviour of indexing a pandas column / numpy array by position. -/
def pyGet {α : Type} (l : List α) (i : ℕ) : Except PyErr α :=
  match l.get? i with
  | some a => .ok a
  | none => .error .indexError

/-! ## The QUITA text-cleaning pipeline (`QuitaText.cleanText`, tokenizer)

`cleanText` lower-cases, removes the substrings `'m`, `'s`, `n't`, removes
digits, and replaces bracketed spans by a space; tokenization extracts
maximal runs of word characters (the nltk `regexp_tokenize(text, '\w+')`
call, which is plain regex matching and is embedded concretely). -/

/-- The apostrophe character. -/
def apos : Char := Char.ofNat 39

/-- `re.sub("'m|'s|n't", '', text)`: scan left to right, removing the
leftmost occurrence of one of the three alternatives and continuing after
it (the three alternatives are tried at each position; `'m` and `'s` start
with an apostrophe, `n't` with `n`, so they are mutually exclusive). -/
def removeSufAux : ℕ → List Char → List Char
  | 0, l => l
  | _ + 1, [] => []
  | _ + 1, [a] => [a]
  | fuel + 1, a :: b :: rest =>
    if a = apos ∧ (b = 'm' ∨ b = 's') then removeSufAux fuel rest
    else if a = 'n' ∧ b = apos ∧ rest.head? = some 't' then
      removeSufAux fuel rest.tail
    else a :: removeSufAux fuel (b :: rest)

/-- `re.sub("'m|'s|n't", '', text)` (fuel equal to the length always
suffices: every step consumes at least one character). -/
def removeSuf (l : List Char) : List Char :=
  removeSufAux l.length l

/-- `re.sub('[0-9]', '', text)`. -/
def removeDigits (l : List Char) : List Char :=
  l.filter (fun c => ¬ c.isDigit)

/-- Helper for the non-greedy bracket pattern `\[.+?\]`: given the
characters after an opening `[`, return the remainder after the closing
`]` of the leftmost-shortest match (at least one intermediate character,
`.` does not cross a newline), or `none` if no match starts here. -/
def findClose : List Char → Option (List Char)
  | [] => none
  | x :: xs =>
    if x = '\n' then none
    else go xs
where
  /-- scan for the first `]`, failing at a newline. -/
  go : List Char → Option (List Char)
    | [] => none
    | c :: cs => if c = ']' then some cs else if c = '\n' then none else go cs

/-- `re.sub(r'\[.+?\]', ' ', text)` with explicit fuel (the remainder
returned by `findClose` is a strict suffix, so fuel equal to the length of
the text always suffices): replace each leftmost non-greedy bracketed span
by a single space. -/
def bracketSubAux : ℕ → List Char → List Char
  | 0, l => l
  | _ + 1, [] => []
  | fuel + 1, c :: rest =>
    if c = '[' then
      match findClose rest with
      | some rem => ' ' :: bracketSubAux fuel rem
      | none => c :: bracketSubAux fuel rest
    else c :: bracketSubAux fuel rest

/-- `re.sub(r'\[.+?\]', ' ', text)`. -/
def bracketSub (l : List Char) : List Char :=
  bracketSubAux l.length l

/-- A word character for the `\w+` tokenizer (ASCII model). -/
def isWordChar (c : Char) : Bool := c.isAlphanum || c = '_'

/-- `regexp_tokenize(text, '\w+')` worker: `acc` is the reversed current
run of word characters. -/
def tokenizeWAux : List Char → List Char → List (List Char)
  | [], acc => if acc.isEmpty then [] else [acc.reverse]
  | c :: rest, acc =>
    if isWordChar c then tokenizeWAux rest (c :: acc)
    else if acc.isEmpty then tokenizeWAux rest []
    else acc.reverse :: tokenizeWAux rest []

/-- `regexp_tokenize(text, '\w+')`: the maximal runs of word characters. -/
def tokenizeW (l : List Char) : List (List Char) :=
  tokenizeWAux l []

/-- `QuitaText.cleanText`: lower-case, drop `'m|'s|n't`, drop digits,
replace bracketed spans by a space. -/
def cleanText (raw : String) : String :=
  String.mk (bracketSub (removeDigits (removeSuf (raw.toList.map Char.toLower))))

/-- The token list a `QuitaText` is built from. -/
def quitaTokens (raw : String) : List String :=
  (tokenizeW (cleanText raw).toList).map String.mk

/-! ## The QUITA type-frequency table (`QuitaText.getTypeData`)

`nltk.FreqDist` is a `Counter`: one entry per distinct type, counts of
occurrences, keys in first-occurrence order.  The table is then sorted by
frequency descending (tie order among equal frequencies is unspecified by
the reference, see spec §9; the embedding uses a stable sort), ranks are
`1..V`, probabilities are `freq / N`, `cumProb` is the running sum. -/

/-- Add one occurrence of `t` to a counter (insert-or-increment). -/
def bumpCount : List (String × ℕ) → String → List (String × ℕ)
  | [], t => [(t, 1)]
  | (s, c) :: rest, t =>
    if s = t then (s, c + 1) :: rest else (s, c) :: bumpCount rest t

/-- `nltk.FreqDist`: counts per distinct type, first-occurrence order. -/
def freqDistOf (toks : List String) : List (String × ℕ) :=
  toks.foldl bumpCount []

/-- Insert into a list sorted by count descending, after all strictly
larger counts and before equal ones met later (stable). -/
def insertDesc (x : String × ℕ) : List (String × ℕ) → List (String × ℕ)
  | [] => [x]
  | y :: ys => if x.2 < y.2 then y :: insertDesc x ys else x :: y :: ys

/-- Sort by count descending (`sort_values('freq', ascending=False)`). -/
def sortDescBy : List (String × ℕ) → List (String × ℕ)
  | [] => []
  | x :: xs => insertDesc x (sortDescBy xs)

/-- One row of the type-frequency table. -/
structure QRow where
  type : String
  freq : ℕ
  prob : ℚ
  rank : ℕ
  cumProb : ℚ
  pos : String
deriving DecidableEq, Repr

/-- `QuitaText.getTypeData`: build the full table from a token list.  The
part-of-speech tagger is the external nltk capability, passed as `tagW`. -/
def getTypeData (tagW : String → String) (toks : List String) : List QRow :=
  let fd := freqDistOf toks
  let n : ℚ := (fd.map (fun p => (p.2 : ℚ))).sum
  let sorted := sortDescBy fd
  (List.range sorted.length).map (fun i =>
    let tc := sorted.getD i ("", 0)
    { type := tc.1, freq := tc.2, prob := (tc.2 : ℚ) / n,
      rank := i + 1,
      cumProb := ((sorted.take (i + 1)).map (fun p => (p.2 : ℚ) / n)).sum,
      pos := tagW tc.1 })

/-- The `QuitaText` value object (fields of `QuitaText.__init__`). -/
structure QText where
  text : String
  tokenList : List String
  tokenNum : ℕ
  typeData : List QRow
  typeNum : ℕ
deriving Repr

/-- `QuitaText.__init__`: clean, tokenize, build the table. -/
def mkQuitaText (tagW : String → String) (rawText : String) : QText :=
  let text := cleanText rawText
  let toks := (tokenizeW text.toList).map String.mk
  { text := text
    tokenList := toks
    tokenNum := toks.length
    typeData := getTypeData tagW toks
    typeNum := (getTypeData tagW toks).length }

/-! ## QUITA index methods -/

/-- `QuitaText.isFunctionWord` (tag of the standalone word in a closed
function-word tag set). -/
def isFunctionWord (tagW : String → String) (w : String) : Bool :=
  tagW w ∈ ["DT", "CD", "CC", "UH", "EX", "MD", "PP", "PP$",
            "WP", "WP$", "PDT", "WDT", "IN", "TO", "WRB"]

/-- `QuitaText.isVerb`. -/
def isVerb (tagW : String → String) (w : String) : Bool :=
  tagW w ∈ ["VB", "VBD", "VBG", "VBN", "VBP", "VBZ"]

/-- `QuitaText.isAdjective`. -/
def isAdjective (tagW : String → String) (w : String) : Bool :=
  tagW w ∈ ["JJ", "JJR", "JJS"]

/-- `QuitaText.isExactHPoint`: is there a rank whose frequency equals it. -/
def isExactHPoint (q : QText) : Bool :=
  (q.typeData.map (fun r => (r.freq, r.rank))).any (fun p => p.1 = p.2)

/-- `QuitaText.getTTR`: `typeNum / tokenNum`, a Python `int / int`
division (raises on a zero denominator). -/
def getTTR (q : QText) : Except PyErr ℚ :=
  pyDiv q.typeNum q.tokenNum

/-- The frequency at a given rank: `freq[np.where(rank == r)][0]`, an
`IndexError` if the rank is not present in the table. -/
def freqAtRank (q : QText) (r : ℕ) : Except PyErr ℕ :=
  match q.typeData.find? (fun row => row.rank = r) with
  | some row => .ok row.freq
  | none => .error .indexError

/-- `QuitaText.getHPoint`: the exact-match rule first (first rank whose
frequency equals it), else the rank-interpolation formula with
`r1 = count(freq > rank)`, `r2 = r1 + 1` (numpy float division). -/
def getHPoint (q : QText) : Except PyErr QF :=
  let fr := q.typeData.map (fun r => (r.freq, r.rank))
  if fr.any (fun p => p.1 = p.2) then
    .ok (.val ((fr.findIdx (fun p => p.1 = p.2)) + 1 : ℕ))
  else do
    let r1 := fr.countP (fun p => p.2 < p.1)
    let r2 := r1 + 1
    let f1 ← freqAtRank q r1
    let f2 ← freqAtRank q r2
    pure (qfDiv (.val ((f1 : ℚ) * r2 - (f2 : ℚ) * r1))
                (.val ((r2 : ℚ) - r1 + f1 - f2)))

/-- `QuitaText.getATL`: `np.average` of the token lengths. -/
def getATL (q : QText) : QF :=
  npAverage (q.tokenList.map (fun t => (t.length : ℚ)))

/-- The cumulative probability at a given rank (`cumProb[np.where(rank ==
r)]`, `IndexError` if absent). -/
def cumProbAtRank (q : QText) (r : ℤ) : Except PyErr ℚ :=
  match q.typeData.find? (fun row => (row.rank : ℤ) = r) with
  | some row => .ok row.cumProb
  | none => .error .indexError

/-- `QuitaText.getVocabRich` (R4): `1 − (cumProbAtH − h²/(2N))`, with the
h-row cumulative probability in the exact case and the average of the two
straddling rows otherwise. -/
def getVocabRich (q : QText) : Except PyErr QF := do
  let h ← getHPoint q
  if isExactHPoint q then
    let ih ← pyInt h
    let cp ← cumProbAtRank q ih
    pure (qfSub (.val 1)
      (qfSub (.val cp) (qfDiv (qfMul h h) (.val (2 * (q.tokenNum : ℚ))))))
  else
    let ih ← pyInt h
    let cl ← cumProbAtRank q ih
    let cr ← cumProbAtRank q (ih + 1)
    let cp := (cl + cr) / 2
    pure (qfSub (.val 1)
      (qfSub (.val cp) (qfDiv (qfMul h h) (.val (2 * (q.tokenNum : ℚ))))))

/-- `QuitaText.getRR`: `Σ probability²`. -/
def getRR (q : QText) : QF :=
  .val ((q.typeData.map (fun r => r.prob ^ 2)).sum)

/-- `QuitaText.getRRmc`: `(1 − √RR) / (1 − 1/√V)` in numpy float
arithmetic — on a degenerate table this is a 0/0, which numpy evaluates
to NaN without raising. -/
def getRRmc (ops : MathOps) (q : QText) : QF :=
  qfDiv (qfSub (.val 1) (qfSqrt ops (getRR q)))
        (qfSub (.val 1) (qfDiv (.val 1) (qfSqrt ops (.val (q.typeNum : ℚ)))))

/-- One iteration of the Thematic Concentration loop: skipped (`none`)
for function words, else `2·(h − rank)·freq / (h·(h−1)·f1)`. -/
def tcTerm (tagW : String → String) (q : QText) (h : QF) (i : ℕ) :
    Except PyErr (Option QF) := do
  let ty ← pyGet (q.typeData.map (fun r => r.type)) i
  if isFunctionWord tagW ty then pure none
  else do
    let f1 ← pyGet (q.typeData.map (fun r => r.freq)) 0
    let fi ← pyGet (q.typeData.map (fun r => r.freq)) i
    let ri ← pyGet (q.typeData.map (fun r => r.rank)) i
    pure (some (qfDiv (qfMul (.val 2) (qfMul (qfSub h (.val ri)) (.val fi)))
      (qfMul (qfMul h (qfSub h (.val 1))) (.val f1))))

/-- `QuitaText.getTC`: sum of `tcTerm` over ranks `1 .. int(h) − 1`. -/
def getTC (tagW : String → String) (q : QText) : Except PyErr QF := do
  let h ← getHPoint q
  let ih ← pyInt h
  let terms ← (List.range (ih - 1).toNat).mapM (tcTerm tagW q h)
  pure (qfSum (terms.filterMap id))

/-- `QuitaText.getSTC`: sum of `tcTerm` over ranks `int(h) .. 2·int(h) − 1`
(row indices `int(h) − 1 .. 2·int(h) − 2`). -/
def getSTC (tagW : String → String) (q : QText) : Except PyErr QF := do
  let h ← getHPoint q
  let ih ← pyInt h
  let lo := (ih - 1).toNat
  let hi := (2 * ih - 1).toNat
  let terms ← (List.range' lo (hi - lo)).mapM (tcTerm tagW q h)
  pure (qfSum (terms.filterMap id))

/-- `QuitaText.getActivity`: `verbCount / (verbCount + adjectiveCount)`, a
Python `int / int` division. -/
def getActivity (tagW : String → String) (q : QText) : Except PyErr ℚ :=
  let verbNum := q.tokenList.countP (fun w => isVerb tagW w)
  let adjNum := q.tokenList.countP (fun w => isAdjective tagW w)
  pyDiv verbNum (verbNum + adjNum)

/-- `QuitaText.getDescriptivity`: `1 − Activity`. -/
def getDescriptivity (tagW : String → String) (q : QText) : Except PyErr ℚ := do
  let a ← getActivity tagW q
  pure (1 - a)

/-- `QuitaText.getCurveLen` with an explicit `typeNum` argument:
`Σ √((freq[i] − freq[i+1])² + 1)` for `i` in `range(typeNum − 1)`. -/
def getCurveLenAt (ops : MathOps) (q : QText) (tn : ℤ) : Except PyErr QF := do
  let terms ← (List.range (tn - 1).toNat).mapM (fun i => do
    let f1 ← pyGet (q.typeData.map (fun r => r.freq)) i
    let f2 ← pyGet (q.typeData.map (fun r => r.freq)) (i + 1)
    pure (qfSqrt ops (.val (((f1 : ℚ) - f2) ^ 2 + 1))))
  pure (qfSum terms)

/-- `QuitaText.getCurveLen()` with the default argument (`typeNum`). -/
def getCurveLen (ops : MathOps) (q : QText) : Except PyErr QF :=
  getCurveLenAt ops q q.typeNum

/-- `QuitaText.getCLI`: `1 − curveLen(int(h) − 1) / curveLen()`. -/
def getCLI (ops : MathOps) (q : QText) : Except PyErr QF := do
  let h ← getHPoint q
  let ih ← pyInt h
  let beforeH ← getCurveLenAt ops q (ih - 1)
  let allLen ← getCurveLen ops q
  pure (qfSub (.val 1) (qfDiv beforeH allLen))

/-- `QuitaText.getLambda`: `curveLen · log10(N) / N`. -/
def getLambda (ops : MathOps) (q : QText) : Except PyErr QF := do
  let cl ← getCurveLen ops q
  pure (qfDiv (qfMul cl (qfLog10 ops (.val (q.tokenNum : ℚ))))
              (.val (q.tokenNum : ℚ)))

/-- `QuitaText.getAdjMod`: `√((f1/h)² + (V/h)²) / log10(N)`. -/
def getAdjMod (ops : MathOps) (q : QText) : Except PyErr QF := do
  let f1 ← pyGet (q.typeData.map (fun r => r.freq)) 0
  let h ← getHPoint q
  let m := qfSqrt ops (qfAdd
    (qfMul (qfDiv (.val (f1 : ℚ)) h) (qfDiv (.val (f1 : ℚ)) h))
    (qfMul (qfDiv (.val (q.typeNum : ℚ)) h) (qfDiv (.val (q.typeNum : ℚ)) h)))
  pure (qfDiv m (qfLog10 ops (.val (q.tokenNum : ℚ))))

/-- `QuitaText.getGiniCoef`: `(V + 1 − 2·Σ(freq·rank)/N) / V` in numpy
arithmetic (`N` is the token count field). -/
def getGiniCoef (q : QText) : QF :=
  let s : ℚ := (q.typeData.map (fun r => (r.freq : ℚ) * (r.rank : ℚ))).sum
  qfDiv (qfSub (.val ((q.typeNum : ℚ) + 1))
               (qfDiv (.val (2 * s)) (.val (q.tokenNum : ℚ))))
        (.val (q.typeNum : ℚ))

/-- `QuitaText.getHL`: `count(freq == 1) / N` (numpy division). -/
def getHL (q : QText) : QF :=
  let hapax := (q.typeData.filter (fun r => r.freq = 1)).length
  qfDiv (.val (hapax : ℚ)) (.val (q.tokenNum : ℚ))

/-- `x²` on the float model. -/
def qfSq (x : QF) : QF := qfMul x x

/-- `QuitaText.getAlpha` (Writer's View): `up / down` with
`up = (1 − h)(f1 + V − 2h)` and
`down = √((h−1)² + (f1−h)²) · √((h−1)² + (V−h)²)`. -/
def getAlpha (ops : MathOps) (q : QText) : Except PyErr QF := do
  let f1 ← pyGet (q.typeData.map (fun r => r.freq)) 0
  let h ← getHPoint q
  let up := qfMul (qfSub (.val 1) h)
                  (qfSub (.val ((f1 : ℚ) + (q.typeNum : ℚ))) (qfMul (.val 2) h))
  let down := qfMul
    (qfSqrt ops (qfAdd (qfSq (qfSub h (.val 1))) (qfSq (qfSub (.val (f1 : ℚ)) h))))
    (qfSqrt ops (qfAdd (qfSq (qfSub h (.val 1))) (qfSq (qfSub (.val (q.typeNum : ℚ)) h))))
  pure (qfDiv up down)

/-- `QuitaText.getVerbDist`: `np.average` of the gaps between consecutive
verb-tagged token positions — `np.average` of an empty list is NaN, no
exception is raised. -/
def getVerbDist (tagW : String → String) (q : QText) : QF :=
  let verbIdx := (List.range q.tokenList.length).filter
    (fun i => isVerb tagW (q.tokenList.getD i ""))
  let gaps := (verbIdx.zip verbIdx.tail).map (fun p => ((p.2 : ℚ) - (p.1 : ℚ)))
  npAverage gaps

/-- The dict-building part of `getQuitaFeature`: the eighteen assignments
`features[key] = value` in source order.  Note that the key `"R"` is
assigned twice in the source — first the h-point, then the Curve Length
Indicator, which overwrites it. -/
def quitaAssemble (ttr hp atl r4 rr rrmc tc stc act des cl cli lam adj gini
    hl alpha vd : QF) : List (String × QF) :=
  let d1 := dictInsert ([] : List (String × QF)) "TTR" ttr
  let d2 := dictInsert d1 "R" hp
  let d3 := dictInsert d2 "ATL" atl
  let d4 := dictInsert d3 "R4" r4
  let d5 := dictInsert d4 "RR" rr
  let d6 := dictInsert d5 "RRmc" rrmc
  let d7 := dictInsert d6 "TC" tc
  let d8 := dictInsert d7 "STC" stc
  let d9 := dictInsert d8 "Q" act
  let d10 := dictInsert d9 "D" des
  let d11 := dictInsert d10 "CL" cl
  let d12 := dictInsert d11 "R" cli
  let d13 := dictInsert d12 "Lambda" lam
  let d14 := dictInsert d13 "A" adj
  let d15 := dictInsert d14 "G" gini
  let d16 := dictInsert d15 "HL" hl
  let d17 := dictInsert d16 "Alpha" alpha
  dictInsert d17 "VD" vd

/-- `getQuitaFeature`: build the `QuitaText` once, compute every index in
the source's assignment order, and collect them into a dict. -/
def getQuitaFeature (ops : MathOps) (tagW : String → String) (text : String) :
    Except PyErr (List (String × QF)) := do
  let q := mkQuitaText tagW text
  let ttr ← getTTR q
  let hp ← getHPoint q
  let atl := getATL q
  let r4 ← getVocabRich q
  let rr := getRR q
  let rrmc := getRRmc ops q
  let tc ← getTC tagW q
  let stc ← getSTC tagW q
  let act ← getActivity tagW q
  let des ← getDescriptivity tagW q
  let cl ← getCurveLen ops q
  let cli ← getCLI ops q
  let lam ← getLambda ops q
  let adj ← getAdjMod ops q
  let gini := getGiniCoef q
  let hl := getHL q
  let alpha ← getAlpha ops q
  let vd := getVerbDist tagW q
  pure (quitaAssemble (.val ttr) hp atl r4 rr rrmc tc stc (.val act)
    (.val des) cl cli lam adj gini hl alpha vd)

/-! ## The Biber engine (`biber.py`)

The tagged-token stream is rendered as a `word_TAG` string and the feature
rules are text patterns; the pattern *construction* (the `OR`/`REPEAT`
combinators and every pattern constant) is embedded exactly, while the
`re.findall` match-counting itself is the Python stdlib regex engine — an
external capability of the embedding, passed as a count function
`cnt : pattern → taggedText → ℕ`. -/

namespace Biber

/-- The apostrophe as a one-character string; the pattern constants below
are assembled with it. -/
def aposS : String := String.mk [apos]

/-- `OR(patternList)`: parenthesised alternation of the patterns. -/
def OR (patternList : List String) : String :=
  "(" ++ String.intercalate aposPipe patternList ++ ")"
where
  /-- the alternation separator. -/
  aposPipe : String := String.mk [Char.ofNat 124]

/-- `REPEAT(pattern, (lo, hi))`: bounded repetition `pattern{lo,hi}`. -/
def REPEAT (pattern : String) (timeRange : ℕ × ℕ) : String :=
  pattern ++ "\x7b" ++ toString timeRange.1 ++ "," ++ toString timeRange.2 ++ "\x7d"

/-- `XXX`: any tagged token. -/
def XXX : String := "( \\w+_[A-Z]+)"

/-- forms of *do*. -/
def DO : String := "( (do|does|did|doing|done)_[A-Z]+)"

/-- forms of *have*. -/
def HAVE : String :=
  "( (have|has|had|having|" ++ aposS ++ "ve|" ++ aposS ++ "d)_[A-Z]+)"

/-- forms of *be*. -/
def BE : String :=
  "( (am|is|are|was|were|being|been|" ++ aposS ++ "m|" ++ aposS ++ "re)_[A-Z]+)"

/-- modal verbs. -/
def MODAL : String :=
  "( (can|may|shall|will|" ++ aposS ++ "ll|could|might|should|would|must)_[A-Z]+)"

/-- auxiliaries. -/
def AUX : String := OR [DO, HAVE, BE, MODAL, "( " ++ aposS ++ "s_[A-Z]+)"]

/-- subject pronouns. -/
def SUBJPRO : String := "( (I|we|he|she|they)_[A-Z]+)"

/-- object pronouns. -/
def OBJPRO : String := "( (me|us|him|them)_[A-Z]+)"

/-- possessive pronouns. -/
def POSSPRO : String := "( (my|our|your|his|their|its)_[A-Z]+)"

/-- reflexive pronouns. -/
def REFLEXPRO : String :=
  "( (myself|ourselves|himself|themselves|herself|yourself|yourselves|itself)_[A-Z]+)"

/-- all pronouns. -/
def PRO : String :=
  OR [SUBJPRO, OBJPRO, POSSPRO, REFLEXPRO, "( (you|her|it)_[A-Z]+)"]

/-- prepositions. -/
def PREP : String :=
  "( (against|amid|amidst|among|amongst|at|besides|between|by|despite" ++
  "|during|except|for|from|in|into|minus|notwithstanding|of|off|on|onto" ++
  "|opposite|out|per|plus|pro|re|than|through|throughout|thru|to|toward" ++
  "|towards|upon|versus|via|with|within|without)_[A-Z]+)"

/-- adverb tags. -/
def ADV : String := "( \\w+_(RB|RBR|RBS))"

/-- adjective tags. -/
def ADJ : String := "( \\w+_(JJ|JJR|JJS))"

/-- noun tags. -/
def N : String := "( \\w+_(NN|NNS|NNP|NNPS))"

/-- past participles. -/
def VBN : String := "( \\w+_VBN)"

/-- present participles. -/
def VBG : String := "( \\w+_VBG)"

/-- base verbs. -/
def VB : String := "( \\w+_VB)"

/-- third-person singular verbs. -/
def VBZ : String := "( \\w+_VBZ)"

/-- public verbs. -/
def PUB : String :=
  "( (acknowledge|admit|agree|assert|claim|complain|declare|deny|explain" ++
  "|hint|insist|mention|proclaim|promise|protest|remark|reply|report|say" ++
  "|suggest|swear|write)_[A-Z]+)"

/-- private verbs (the source string ends in a space). -/
def PRV : String :=
  "( (anticipate|assume|believe|conclude|decide|demonstrate|determine" ++
  "|discover|doubt|estimate|fear|feel|find|forget|guess|hear|hope|imagine" ++
  "|imply|indicate|infer|know|learn|mean|notice|prove|realize|recognize" ++
  "|remember|reveal|see|show|suppose|think|understand)_[A-Z]+) "

/-- suasive verbs. -/
def SUA : String :=
  "( (agree|arrange|ask|beg|command|decide|demand|grant|insist|instruct" ++
  "|ordain|pledge|pronounce|propose|recommend|request|stipulate|suggest" ++
  "|urge)_[A-Z]+)"

/-- any verb tag. -/
def V : String := "( \\w+_(VB|VBD|VBG|VBN|VBP|VBZ))"

/-- WH pronouns. -/
def WHP : String := "( (who|whom|whose|which)_[A-Z]+)"

/-- other WH words. -/
def WHO : String :=
  "( (what|where|when|how|whether|why|whoever|whomever|whichever|wherever" ++
  "|whenever|whatever|however)_[A-Z]+)"

/-- articles. -/
def ART : String := "( (a|an|the)_[A-Z]+)"

/-- demonstratives. -/
def DEM : String := "( (this|that|these|those)_[A-Z]+)"

/-- quantifiers. -/
def QUAN : String := "( (each|all|every|many|much|few|several|some|any)_[A-Z]+)"

/-- numerals. -/
def NUM : String :=
  "( (one|two|three|four|five|six|seven|eight|nine|ten|twelve|thirteen" ++
  "|fourteen|fifteen|sixteen|seventeen|eighteen|nineteen|twenty|hundred" ++
  "|thousand)_[A-Z]+)"

/-- determiners. -/
def DET : String := OR [ART, DEM, QUAN, NUM]

/-- ordinals. -/
def ORD : String :=
  "( (first|second|third|fourth|fifth|sixth|seventh|eighth|ninth|tenth)_[A-Z]+)"

/-- quantifier pronouns. -/
def QUANPRO : String :=
  "( (everybody|somebody|anybody|everyone|someone|anyone|everything" ++
  "|something|anything)_[A-Z]+)"

/-- titles. -/
def TITLE : String := "( (mr|ms|miss|mrs|dr)_[A-Z]+)"

/-- clause punctuation. -/
def CL_P : String := "( \\._\\.|\\!_\\!|\\?_\\?|\\:_\\:|\\;_\\;|\\-_\\-)"

/-- all punctuation. -/
def ALL_P : String := OR [CL_P, "( \\,_\\,)"]

/-- *seem*. -/
def SEEM : String := "( seem_[A-Z])"

/-- *appear*. -/
def APPEAR : String := "( appear+_[A-Z])"

/-- demonstrative pronouns. -/
def DEMOPRO : String :=
  OR ["( (that|this|these|those)_[A-Z]+)" ++
        OR [V, AUX, CL_P, WHP, "( and_[A-Z]+)"],
      "( that_[A-Z]+ " ++ aposS ++ "s_[A-Z]+)"]

/-- conjunct pattern 1 (single adverbs; the source string ends in a
space). -/
def conjPattern1 : String :=
  "(alternatively|altogether|consequently|conversely" ++
  "|else|furthermore|hence|however|instead|likewise" ++
  "|moreover|namely|nevertheless|nonetheless" ++
  "|notwithstanding|otherwise|rather|similarly|therefore" ++
  "|thus|viz) "

/-- conjunct pattern 2 (*in comparison* etc.). -/
def conjPattern2 : String :=
  "( in_[A-Z]+)" ++
  "( (comparison|contrast|particular |addition|conclusion|consequence|sum" ++
  "|summary)_[A-Z]+) "

/-- conjunct pattern 3 (*in any event* etc.). -/
def conjPattern3 : String :=
  "( in_[A-Z]+)" ++
  "( (any_[A-Z]+ event_[A-Z]+|any_[A-Z]+ case_[A-Z]+|other_[A-Z]+ words_[A-Z]+)) "

/-- conjunct pattern 4 (*for example/instance*). -/
def conjPattern4 : String := "( for_[A-Z]+)" ++ "( (example|instance)_[A-Z]+)"

/-- conjunct pattern 5 (*by contrast/comparison*). -/
def conjPattern5 : String := "( by_[A-Z]+)" ++ "( (contrast|comparison)_[A-Z]+)"

/-- conjunct pattern 6 (*as a result/consequence*). -/
def conjPattern6 : String :=
  "( as_[A-Z]+ a_[A-Z]+)" ++ "( (result|consequence)_[A-Z]+)"

/-- conjunct pattern 7 (*on the contrary / on the other hand*). -/
def conjPattern7 : String :=
  "( on_[A-Z]+ the_[A-Z]+ contrary_[A-Z]+" ++
  "|on_[A-Z]+ the_[A-Z]+ other_[A-Z]+ hand_[A-Z]+)"

/-- conjunct pattern 8 (punctuation followed by *that is* etc.). -/
def conjPattern8 : String :=
  ALL_P ++ "( that_[A-Z]+ is_[A-Z]+| else_[A-Z]+| altogether_[A-Z]+)"

/-- `getCONJ()`: the alternation of the eight conjunct patterns. -/
def getCONJ : String :=
  OR [conjPattern1, conjPattern2, conjPattern3, conjPattern4,
      conjPattern5, conjPattern6, conjPattern7, conjPattern8]

/-- Lower-case a string character-wise (Python `str.lower`, ASCII model). -/
def lowerString (s : String) : String := String.mk (s.toList.map Char.toLower)

/-- The `BiberText` value object (fields of `BiberText.__init__`). -/
structure BText where
  rawText : String
  taggedText : String
  tokenList : List String
  tagList : List String
  tokenNum : ℕ
  typeNum : ℕ
deriving Repr

/-- `BiberText.posTag`: render the tagged tokens as a space-separated
`word_TAG` string, lower-casing the words. -/
def posTag (tagged : List (String × String)) : String :=
  String.intercalate oneSpace (tagged.map (fun p => lowerString p.1 ++ "_" ++ p.2))
where
  /-- the separator. -/
  oneSpace : String := " "

/-- `BiberText.__init__`: tokenization and tagging are the external nltk
capabilities `tokF` and `tagF`. -/
def mkBiberText (tokF : String → List String)
    (tagF : List String → List (String × String)) (rawText : String) : BText :=
  let toks := tokF rawText
  let tagged := tagF toks
  { rawText := rawText
    taggedText := posTag tagged
    tokenList := toks
    tagList := tagged.map (fun p => p.2)
    tokenNum := toks.length
    typeNum := (freqDistOf toks).length }

/-- The type of the external `re.findall` match counter:
`cnt pattern taggedText = len(re.findall(pattern, taggedText))`. -/
abbrev Cnt : Type := String → String → ℕ

/-- A01 past tense: count of `VBD` tags. -/
def feature_01 (t : BText) : Except PyErr QF := do
  let num := t.tagList.countP (fun pos => pos = "VBD")
  let r ← pyDiv (1000 * (num : ℚ)) (t.tokenNum : ℚ)
  pure (.val r)

/-- A02 perfect aspect. -/
def feature_02 (cnt : Cnt) (t : BText) : Except PyErr QF := do
  let pattern_a := HAVE ++ REPEAT ADV (0, 2) ++ VBN
  let pattern_b := HAVE ++ OR [N, PRO] ++ VBN
  let pattern := OR [pattern_a, pattern_b]
  let num := cnt pattern t.taggedText
  let r ← pyDiv (1000 * (num : ℚ)) (t.tokenNum : ℚ)
  pure (.val r)

/-- A03 present tense: count of `VBP`/`VBZ` tags. -/
def feature_03 (t : BText) : Except PyErr QF := do
  let num := t.tagList.countP (fun pos => pos = "VBP" ∨ pos = "VBZ")
  let r ← pyDiv (1000 * (num : ℚ)) (t.tokenNum : ℚ)
  pure (.val r)

/-- B04 place adverbials. -/
def feature_04 (cnt : Cnt) (t : BText) : Except PyErr QF := do
  let pattern := "( (aboard|above|abroad|across|ahead|alongside|around" ++
    "|ashore|astern|away|behind|below|beneath|beside|downhill" ++
    "|downstairs|downstream|east|far|hereabouts|indoors|inland" ++
    "|inshore|inside|locally|near|nearby|north|nowhere|outdoors" ++
    "|outside|overboard|overland|overseas|south|underfoot" ++
    "|underground|underneath|uphill|upstairs|upstream|west)" ++
    "_[A-Z]+)"
  let num := cnt pattern t.taggedText
  let r ← pyDiv (1000 * (num : ℚ)) (t.tokenNum : ℚ)
  pure (.val r)

/-- B05 time adverbials. -/
def feature_05 (cnt : Cnt) (t : BText) : Except PyErr QF := do
  let pattern := "( (afterwards|again|earlier|early|eventually|formerly" ++
    "|immediately|initially|instantly|late|lately|later" ++
    "|momentarily|now|nowadays|once|originally|presently" ++
    "|previously|recently|shortly|simultaneously|soon" ++
    "|subsequently|today|tomorrow|tonight|yesterday)" ++
    "_[A-Z]+)"
  let num := cnt pattern t.taggedText
  let r ← pyDiv (1000 * (num : ℚ)) (t.tokenNum : ℚ)
  pure (.val r)

/-- C06 first person pronouns. -/
def feature_06 (cnt : Cnt) (t : BText) : Except PyErr QF := do
  let pattern := "( (I|me|we|us|my|our|myself|ourselves)_[A-Z]+)"
  let num := cnt pattern t.taggedText
  let r ← pyDiv (1000 * (num : ℚ)) (t.tokenNum : ℚ)
  pure (.val r)

/-- C07 second person pronouns. -/
def feature_07 (cnt : Cnt) (t : BText) : Except PyErr QF := do
  let pattern := "( (you|your|yourself|yourselves)_[A-Z]+)"
  let num := cnt pattern t.taggedText
  let r ← pyDiv (1000 * (num : ℚ)) (t.tokenNum : ℚ)
  pure (.val r)

/-- C08 third person personal pronouns. -/
def feature_08 (cnt : Cnt) (t : BText) : Except PyErr QF := do
  let pattern := "( (she|he|they|her|him|them|his|their|himself|herself" ++
    "|themselves)_[A-Z]+)"
  let num := cnt pattern t.taggedText
  let r ← pyDiv (1000 * (num : ℚ)) (t.tokenNum : ℚ)
  pure (.val r)

/-- C09 pronoun *it*. -/
def feature_09 (cnt : Cnt) (t : BText) : Except PyErr QF := do
  let pattern := "( it_[A-Z]+)"
  let num := cnt pattern t.taggedText
  let r ← pyDiv (1000 * (num : ℚ)) (t.tokenNum : ℚ)
  pure (.val r)

/-- C10 demonstrative pronouns. -/
def feature_10 (cnt : Cnt) (t : BText) : Except PyErr QF := do
  let pattern_a := "( (that|this|these|those)_[A-Z]+)" ++
    OR [V, AUX, CL_P, WHP, "( and_[A-Z]+)"]
  let pattern_b := "( that_[A-Z]+ " ++ aposS ++ "s_[A-Z]+)"
  let pattern := OR [pattern_a, pattern_b]
  let num := cnt pattern t.taggedText
  let r ← pyDiv (1000 * (num : ℚ)) (t.tokenNum : ℚ)
  pure (.val r)

/-- C11 indefinite pronouns. -/
def feature_11 (cnt : Cnt) (t : BText) : Except PyErr QF := do
  let pattern := "( (anybody|anyone|anything|everybody|everyone|everything" ++
    "|nobody|none|nothing|nowhere|somebody|someone|something)" ++
    "_[A-Z]+)"
  let num := cnt pattern t.taggedText
  let r ← pyDiv (1000 * (num : ℚ)) (t.tokenNum : ℚ)
  pure (.val r)

/-- C12 pro-verb *do*: the inclusion/exclusion idiom — all `do` forms
minus auxiliary uses (patterns a and b); the subtraction is passed through
unmodified and may be negative. -/
def feature_12 (cnt : Cnt) (t : BText) : Except PyErr QF := do
  let pattern_a := DO ++ REPEAT ADV (0, 1) ++ V
  let pattern_b := OR [ALL_P, WHP] ++ DO
  let num_a := cnt pattern_a t.taggedText
  let num_b := cnt pattern_b t.taggedText
  let num_do := cnt DO t.taggedText
  let r ← pyDiv (1000 * (((num_do : ℤ) - num_a - num_b : ℤ) : ℚ)) (t.tokenNum : ℚ)
  pure (.val r)

/-- D13 direct WH-questions. -/
def feature_13 (cnt : Cnt) (t : BText) : Except PyErr QF := do
  let pattern := CL_P ++ WHO ++ AUX
  let num := cnt pattern t.taggedText
  let r ← pyDiv (1000 * (num : ℚ)) (t.tokenNum : ℚ)
  pure (.val r)

/-- E14 nominalizations. -/
def feature_14 (cnt : Cnt) (t : BText) : Except PyErr QF := do
  let pattern := "( \\w+(tion|tions|ment|ments|ness|nesses|ity|ities)_[A-Z]+)"
  let num := cnt pattern t.taggedText
  let r ← pyDiv (1000 * (num : ℚ)) (t.tokenNum : ℚ)
  pure (.val r)

/-- F17 agentless passives: all passives minus by-passives; the
subtraction is passed through unmodified and may be negative. -/
def feature_17 (cnt : Cnt) (t : BText) : Except PyErr QF := do
  let pattern_a := BE ++ REPEAT ADV (0, 2) ++ VBN ++ "( by_[A-Z]+)"
  let pattern_b := BE ++ OR [N, PRO] ++ VBN ++ "( by_[A-Z]+)"
  let withBy := OR [pattern_a, pattern_b]
  let pattern_c := BE ++ REPEAT ADV (0, 2) ++ VBN
  let pattern_d := BE ++ OR [N, PRO] ++ VBN
  let allPassive := OR [pattern_c, pattern_d]
  let num1 := cnt withBy t.taggedText
  let num2 := cnt allPassive t.taggedText
  let r ← pyDiv (1000 * (((num2 : ℤ) - num1 : ℤ) : ℚ)) (t.tokenNum : ℚ)
  pure (.val r)

/-- F18 by-passives. -/
def feature_18 (cnt : Cnt) (t : BText) : Except PyErr QF := do
  let pattern_a := BE ++ REPEAT ADV (0, 2) ++ VBN ++ "( by_[A-Z]+)"
  let pattern_b := BE ++ OR [N, PRO] ++ VBN ++ "( by_[A-Z]+)"
  let pattern := OR [pattern_a, pattern_b]
  let num := cnt pattern t.taggedText
  let r ← pyDiv (1000 * (num : ℚ)) (t.tokenNum : ℚ)
  pure (.val r)

/-- G19 *be* as main verb. -/
def feature_19 (cnt : Cnt) (t : BText) : Except PyErr QF := do
  let pattern := BE ++ OR [DET, POSSPRO, TITLE, PREP, ADJ]
  let num := cnt pattern t.taggedText
  let r ← pyDiv (1000 * (num : ℚ)) (t.tokenNum : ℚ)
  pure (.val r)

/-- G20 existential *there*. -/
def feature_20 (cnt : Cnt) (t : BText) : Except PyErr QF := do
  let pattern_a := "( there_[A-Z]+)" ++ REPEAT XXX (0, 1) ++ BE
  let pattern_b := "( there_[A-Z]+)" ++ "( " ++ aposS ++ "s_[A-Z]+)"
  let pattern := OR [pattern_a, pattern_b]
  let num := cnt pattern t.taggedText
  let r ← pyDiv (1000 * (num : ℚ)) (t.tokenNum : ℚ)
  pure (.val r)

/-- H21 *that* verb complements (three sub-patterns, two of them
inclusion/exclusion differences). -/
def feature_21 (cnt : Cnt) (t : BText) : Except PyErr QF := do
  let pattern_a := OR ["( (and|nor|but|or|also)_[A-Z]+)", ALL_P] ++
    "( that_[A-Z]+)" ++ OR [DET, PRO, "( there_[A-Z]+)", N, TITLE]
  let a_num := cnt pattern_a t.taggedText
  let pattern_b_all := OR [PUB, PRV, SUA, SEEM, APPEAR] ++ "( that_[A-Z]+)" ++ XXX
  let pattern_b_except := OR [PUB, PRV, SUA, SEEM, APPEAR] ++
    "( that_[A-Z])" ++ OR [V, AUX, CL_P, "( and_[A-Z]+)"]
  let b_all_num := cnt pattern_b_all t.taggedText
  let b_except_num := cnt pattern_b_except t.taggedText
  let b_num : ℤ := (b_all_num : ℤ) - b_except_num
  let pattern_c_all := OR [PUB, PRV, SUA] ++ PREP ++ XXX ++ "+" ++ N ++ "( that_[A-Z]+)"
  let pattern_c_except := OR [PUB, PRV, SUA] ++ PREP ++ N ++ N ++ "( that_[A-Z]+)"
  let c_all_num := cnt pattern_c_all t.taggedText
  let c_except_num := cnt pattern_c_except t.taggedText
  let c_num : ℤ := (c_all_num : ℤ) - c_except_num
  let r ← pyDiv (1000 * (((a_num : ℤ) + b_num + c_num : ℤ) : ℚ)) (t.tokenNum : ℚ)
  pure (.val r)

/-- H22 *that* adjective complements. -/
def feature_22 (cnt : Cnt) (t : BText) : Except PyErr QF := do
  let pattern := ADJ ++ "( that_[A-Z]+)"
  let num := cnt pattern t.taggedText
  let r ← pyDiv (1000 * (num : ℚ)) (t.tokenNum : ℚ)
  pure (.val r)

/-- H23 WH-clauses (inclusion/exclusion). -/
def feature_23 (cnt : Cnt) (t : BText) : Except PyErr QF := do
  let pattern_all := OR [PUB, PRV, SUA] ++ OR [WHP, WHO] ++ XXX
  let pattern_except := OR [PUB, PRV, SUA] ++ OR [WHP, WHO] ++ AUX
  let num_all := cnt pattern_all t.taggedText
  let num_except := cnt pattern_except t.taggedText
  let r ← pyDiv (1000 * (((num_all : ℤ) - num_except : ℤ) : ℚ)) (t.tokenNum : ℚ)
  pure (.val r)

/-- H24 infinitives. -/
def feature_24 (cnt : Cnt) (t : BText) : Except PyErr QF := do
  let pattern := "( to_[A-Z]+)" ++ REPEAT ADV (0, 1) ++ VB
  let num := cnt pattern t.taggedText
  let r ← pyDiv (1000 * (num : ℚ)) (t.tokenNum : ℚ)
  pure (.val r)

/-- H25 present participial clauses. -/
def feature_25 (cnt : Cnt) (t : BText) : Except PyErr QF := do
  let pattern := ALL_P ++ VBG ++ OR [PREP, DET, WHP, WHO, PRO, ADV]
  let num := cnt pattern t.taggedText
  let r ← pyDiv (1000 * (num : ℚ)) (t.tokenNum : ℚ)
  pure (.val r)

/-- H26 past participial clauses. -/
def feature_26 (cnt : Cnt) (t : BText) : Except PyErr QF := do
  let pattern := ALL_P ++ VBN ++ OR [PREP, ADV]
  let num := cnt pattern t.taggedText
  let r ← pyDiv (1000 * (num : ℚ)) (t.tokenNum : ℚ)
  pure (.val r)

/-- H27 past participial WHIZ deletion relatives. -/
def feature_27 (cnt : Cnt) (t : BText) : Except PyErr QF := do
  let pattern := OR [N, QUANPRO] ++ VBN ++ OR [PREP, BE, ADV]
  let num := cnt pattern t.taggedText
  let r ← pyDiv (1000 * (num : ℚ)) (t.tokenNum : ℚ)
  pure (.val r)

/-- H28 present participial WHIZ deletion relatives. -/
def feature_28 (cnt : Cnt) (t : BText) : Except PyErr QF := do
  let pattern := N ++ VBG
  let num := cnt pattern t.taggedText
  let r ← pyDiv (1000 * (num : ℚ)) (t.tokenNum : ℚ)
  pure (.val r)

/-- H29 *that* relative clauses on subject position. -/
def feature_29 (cnt : Cnt) (t : BText) : Except PyErr QF := do
  let pattern := N ++ "( that_[A-Z]+)" ++ REPEAT ADV (0, 1) ++ OR [AUX, V]
  let num := cnt pattern t.taggedText
  let r ← pyDiv (1000 * (num : ℚ)) (t.tokenNum : ℚ)
  pure (.val r)

/-- H30 *that* relative clauses on object position. -/
def feature_30 (cnt : Cnt) (t : BText) : Except PyErr QF := do
  let pattern := N ++ "( that_[A-Z]+)" ++
    OR [DET, SUBJPRO, POSSPRO, "( it_[A-Z]+)", ADJ, N, TITLE]
  let num := cnt pattern t.taggedText
  let r ← pyDiv (1000 * (num : ℚ)) (t.tokenNum : ℚ)
  pure (.val r)

/-- *ask* forms (used by features 31 and 32). -/
def ASK : String := "( (ask|asked|asks)_[A-Z]+)"

/-- *tell* forms (used by features 31 and 32). -/
def TELL : String := "( (tell|told|tells)_[A-Z]+)"

/-- H31 WH relative clauses on subject position (inclusion/exclusion). -/
def feature_31 (cnt : Cnt) (t : BText) : Except PyErr QF := do
  let pattern_all := XXX ++ XXX ++ N ++ WHP ++ REPEAT ADV (0, 1) ++ OR [AUX, V]
  let pattern_except := OR [ASK, TELL] ++ XXX ++ N ++ WHP ++
    REPEAT ADV (0, 1) ++ OR [AUX, V]
  let num_all := cnt pattern_all t.taggedText
  let num_except := cnt pattern_except t.taggedText
  let r ← pyDiv (1000 * (((num_all : ℤ) - num_except : ℤ) : ℚ)) (t.tokenNum : ℚ)
  pure (.val r)

/-- H32 WH relative clauses on object positions (four counts combined). -/
def feature_32 (cnt : Cnt) (t : BText) : Except PyErr QF := do
  let pattern_1 := XXX ++ XXX ++ N ++ WHP ++ XXX
  let pattern_2 := XXX ++ OR [ASK, TELL] ++ N ++ WHP ++ OR [ADV, AUX, V]
  let pattern_3 := XXX ++ OR [ASK, TELL] ++ N ++ WHP ++ XXX
  let pattern_4 := XXX ++ XXX ++ N ++ WHP ++ OR [ADV, AUX, V]
  let num_1 := cnt pattern_1 t.taggedText
  let num_2 := cnt pattern_2 t.taggedText
  let num_3 := cnt pattern_3 t.taggedText
  let num_4 := cnt pattern_4 t.taggedText
  let r ← pyDiv (1000 * (((num_1 : ℤ) + num_2 - num_4 - num_3 : ℤ) : ℚ))
    (t.tokenNum : ℚ)
  pure (.val r)

/-- H33 pied-piping relative clauses. -/
def feature_33 (cnt : Cnt) (t : BText) : Except PyErr QF := do
  let pattern := PREP ++ WHP
  let num := cnt pattern t.taggedText
  let r ← pyDiv (1000 * (num : ℚ)) (t.tokenNum : ℚ)
  pure (.val r)

/-- H34 sentence relatives. -/
def feature_34 (cnt : Cnt) (t : BText) : Except PyErr QF := do
  let pattern := "( ,_, which_[A-Z]+)"
  let num := cnt pattern t.taggedText
  let r ← pyDiv (1000 * (num : ℚ)) (t.tokenNum : ℚ)
  pure (.val r)

/-- H35 causative adverbial subordinators. -/
def feature_35 (cnt : Cnt) (t : BText) : Except PyErr QF := do
  let pattern := "( because_[A-Z]+)"
  let num := cnt pattern t.taggedText
  let r ← pyDiv (1000 * (num : ℚ)) (t.tokenNum : ℚ)
  pure (.val r)

/-- H36 concessive adverbial subordinators. -/
def feature_36 (cnt : Cnt) (t : BText) : Except PyErr QF := do
  let pattern := "( (although|though)_[A-Z]+)"
  let num := cnt pattern t.taggedText
  let r ← pyDiv (1000 * (num : ℚ)) (t.tokenNum : ℚ)
  pure (.val r)

/-- H37 conditional adverbial subordinators. -/
def feature_37 (cnt : Cnt) (t : BText) : Except PyErr QF := do
  let pattern := "( (if|unless)_[A-Z]+)"
  let num := cnt pattern t.taggedText
  let r ← pyDiv (1000 * (num : ℚ)) (t.tokenNum : ℚ)
  pure (.val r)

/-- H38 other adverbial subordinators. -/
def feature_38 (cnt : Cnt) (t : BText) : Except PyErr QF := do
  let pattern := OR
    ["( (since|while|whilst|whereupon|whereas|whereby)_[A-Z]+)",
     "( (such|so|such)_[A-Z]+ that_[A-Z]+)",
     "( (inasmuch|forasmuch|insofar|insomuch)_[A-Z]+ as_[A-Z]+)",
     "( as_[A-Z]+ (long|soon)_[A-Z]+ as_[A-Z]+)"]
  let num := cnt pattern t.taggedText
  let r ← pyDiv (1000 * (num : ℚ)) (t.tokenNum : ℚ)
  pure (.val r)

/-- I39 total prepositional phrases. -/
def feature_39 (cnt : Cnt) (t : BText) : Except PyErr QF := do
  let pattern := PREP
  let num := cnt pattern t.taggedText
  let r ← pyDiv (1000 * (num : ℚ)) (t.tokenNum : ℚ)
  pure (.val r)

/-- I40 attributive adjectives. -/
def feature_40 (cnt : Cnt) (t : BText) : Except PyErr QF := do
  let pattern := ADJ ++ OR [ADJ, N]
  let num := cnt pattern t.taggedText
  let r ← pyDiv (1000 * (num : ℚ)) (t.tokenNum : ℚ)
  pure (.val r)

/-- I41 predicative adjectives (two inclusion/exclusion differences). -/
def feature_41 (cnt : Cnt) (t : BText) : Except PyErr QF := do
  let pattern_a_all := BE ++ ADJ ++ XXX
  let pattern_a_except := BE ++ ADJ ++ OR [ADJ, ADV, N]
  let num_a_all := cnt pattern_a_all t.taggedText
  let num_a_except := cnt pattern_a_except t.taggedText
  let num_a : ℤ := (num_a_all : ℤ) - num_a_except
  let pattern_b_all := BE ++ ADJ ++ ADV ++ XXX
  let pattern_b_except := BE ++ ADJ ++ ADV ++ OR [ADJ, N]
  let num_b_all := cnt pattern_b_all t.taggedText
  let num_b_except := cnt pattern_b_except t.taggedText
  let num_b : ℤ := (num_b_all : ℤ) - num_b_except
  let r ← pyDiv (1000 * ((num_a + num_b : ℤ) : ℚ)) (t.tokenNum : ℚ)
  pure (.val r)

/-- I42 total adverbs. -/
def feature_42 (cnt : Cnt) (t : BText) : Except PyErr QF := do
  let pattern := ADV
  let num := cnt pattern t.taggedText
  let r ← pyDiv (1000 * (num : ℚ)) (t.tokenNum : ℚ)
  pure (.val r)

/-- J43 type/token ratio (no ×1000). -/
def feature_43 (t : BText) : Except PyErr QF := do
  let r ← pyDiv (t.typeNum : ℚ) (t.tokenNum : ℚ)
  pure (.val r)

/-- Worker for `re.sub("'s|'m|'t", '', text)` used by feature 44. -/
def removeSuf44Aux : ℕ → List Char → List Char
  | 0, l => l
  | _ + 1, [] => []
  | _ + 1, [a] => [a]
  | fuel + 1, a :: b :: rest =>
    if a = apos ∧ (b = 's' ∨ b = 'm' ∨ b = 't') then removeSuf44Aux fuel rest
    else a :: removeSuf44Aux fuel (b :: rest)

/-- `re.sub("'s|'m|'t", '', text)` used by feature 44. -/
def removeSuf44 (l : List Char) : List Char :=
  removeSuf44Aux l.length l

/-- J44 word length: mean character length of the word tokens of the raw
text with digits and contraction suffixes removed (`np.average` of an
empty list is NaN). -/
def feature_44 (t : BText) : QF :=
  let cleaned := removeSuf44 (removeDigits t.rawText.toList)
  let wordList := tokenizeW cleaned
  npAverage (wordList.map (fun w => (w.length : ℚ)))

/-- K45 conjuncts (the same eight patterns as `getCONJ`). -/
def feature_45 (cnt : Cnt) (t : BText) : Except PyErr QF := do
  let pattern := OR [conjPattern1, conjPattern2, conjPattern3, conjPattern4,
    conjPattern5, conjPattern6, conjPattern7, conjPattern8]
  let num := cnt pattern t.taggedText
  let r ← pyDiv (1000 * (num : ℚ)) (t.tokenNum : ℚ)
  pure (.val r)

/-- K46 downtoners (the source string ends in a space). -/
def feature_46 (cnt : Cnt) (t : BText) : Except PyErr QF := do
  let pattern := "(almost|barely|hardly|merely|mildly|nearly|only|partially" ++
    "|partly|practically|scarcely|slightly|somewhat)_[A-Z]+ "
  let num := cnt pattern t.taggedText
  let r ← pyDiv (1000 * (num : ℚ)) (t.tokenNum : ℚ)
  pure (.val r)

/-- K47 hedges (one plain count, the second an inclusion/exclusion
difference; the first pattern contains an empty alternative, preserved
verbatim). -/
def feature_47 (cnt : Cnt) (t : BText) : Except PyErr QF := do
  let pattern_a := "(at_[A-Z]+ about_[A-Z]+|something_[A-Z]+ like_[A-Z]+" ++
    "|more_[A-Z]+ or_[A-Z]+ less_[A-Z]+" ++
    "|almost_[A-Z]+|maybe_[A-Z]+|)"
  let num_a := cnt pattern_a t.taggedText
  let pattern_b_all := XXX ++ "( (sort|kind)_[A-Z]+ of_[A-Z]+)"
  let pattern_b_except := OR [DET, ADJ, POSSPRO, WHO] ++
    "( (sort|kind)_[A-Z]+ of_[A-Z]+)"
  let num_b_all := cnt pattern_b_all t.taggedText
  let num_b_except := cnt pattern_b_except t.taggedText
  let num_b : ℤ := (num_b_all : ℤ) - num_b_except
  let r ← pyDiv (1000 * (((num_a : ℤ) + num_b : ℤ) : ℚ)) (t.tokenNum : ℚ)
  pure (.val r)

/-- K48 amplifiers. -/
def feature_48 (cnt : Cnt) (t : BText) : Except PyErr QF := do
  let pattern := "absolutely|altogether|completely|enormously|entirely" ++
    "|extremely|fully|greatly|highly|intensely|perfectly" ++
    "|strongly|thoroughly|totally|utterly|very"
  let num := cnt pattern t.taggedText
  let r ← pyDiv (1000 * (num : ℚ)) (t.tokenNum : ℚ)
  pure (.val r)

/-- K49 emphatics. -/
def feature_49 (cnt : Cnt) (t : BText) : Except PyErr QF := do
  let pattern := "( for_[A-Z]+ sure_[A-Z]+| a_[A-Z]+ lot_[A-Z]+" ++
    "| such_[A-Z]+ a_[A-Z]+| real_[A-Z]+)" ++
    OR [ADJ, "( so_[A-Z]+)"] ++ OR [ADJ, DO] ++
    OR [V, "( (just|really|most|more)_[A-Z]+)"]
  let num := cnt pattern t.taggedText
  let r ← pyDiv (1000 * (num : ℚ)) (t.tokenNum : ℚ)
  pure (.val r)

/-- K50 discourse particles. -/
def feature_50 (cnt : Cnt) (t : BText) : Except PyErr QF := do
  let pattern := CL_P ++ "( (well|now|anyway|anyhow|anyways)_[A-Z]+)"
  let num := cnt pattern t.taggedText
  let r ← pyDiv (1000 * (num : ℚ)) (t.tokenNum : ℚ)
  pure (.val r)

/-- K51 demonstratives. -/
def feature_51 (cnt : Cnt) (t : BText) : Except PyErr QF := do
  let pattern := "( (that|this|these|those)_DT)"
  let num := cnt pattern t.taggedText
  let r ← pyDiv (1000 * (num : ℚ)) (t.tokenNum : ℚ)
  pure (.val r)

/-- L52 possibility modals. -/
def feature_52 (cnt : Cnt) (t : BText) : Except PyErr QF := do
  let pattern := "( (can|may|might|could)_[A-Z]+)"
  let num := cnt pattern t.taggedText
  let r ← pyDiv (1000 * (num : ℚ)) (t.tokenNum : ℚ)
  pure (.val r)

/-- L53 necessity modals. -/
def feature_53 (cnt : Cnt) (t : BText) : Except PyErr QF := do
  let pattern := "( (ought|should|must)_[A-Z]+)"
  let num := cnt pattern t.taggedText
  let r ← pyDiv (1000 * (num : ℚ)) (t.tokenNum : ℚ)
  pure (.val r)

/-- L54 predictive modals. -/
def feature_54 (cnt : Cnt) (t : BText) : Except PyErr QF := do
  let pattern := "( (will|would|shall)_[A-Z]+)"
  let num := cnt pattern t.taggedText
  let r ← pyDiv (1000 * (num : ℚ)) (t.tokenNum : ℚ)
  pure (.val r)

/-- M55 public verbs. -/
def feature_55 (cnt : Cnt) (t : BText) : Except PyErr QF := do
  let num := cnt PUB t.taggedText
  let r ← pyDiv (1000 * (num : ℚ)) (t.tokenNum : ℚ)
  pure (.val r)

/-- M56 private verbs. -/
def feature_56 (cnt : Cnt) (t : BText) : Except PyErr QF := do
  let num := cnt PRV t.taggedText
  let r ← pyDiv (1000 * (num : ℚ)) (t.tokenNum : ℚ)
  pure (.val r)

/-- M57 suasive verbs. -/
def feature_57 (cnt : Cnt) (t : BText) : Except PyErr QF := do
  let num := cnt SUA t.taggedText
  let r ← pyDiv (1000 * (num : ℚ)) (t.tokenNum : ℚ)
  pure (.val r)

/-- M58 *seem*/*appear*. -/
def feature_58 (cnt : Cnt) (t : BText) : Except PyErr QF := do
  let pattern := "( (seem|appear)_[A-Z]+)"
  let num := cnt pattern t.taggedText
  let r ← pyDiv (1000 * (num : ℚ)) (t.tokenNum : ℚ)
  pure (.val r)

/-- N59 contractions (inclusion/exclusion). -/
def feature_59 (cnt : Cnt) (t : BText) : Except PyErr QF := do
  let pattern_all := "( (" ++ aposS ++ "d|" ++ aposS ++ "ll|" ++ aposS ++
    "m|" ++ aposS ++ "re|" ++ aposS ++ "ve|n" ++ aposS ++ "t|" ++ aposS ++
    "s)_[A-Z]+)"
  let pattern_except := "(" ++ aposS ++ "s_[A-Z]+)" ++ OR [V, AUX, ADV] ++
    OR [V, ADV] ++ OR [AUX, DET, POSSPRO, PREP, ADJ] ++ OR [CL_P, ADJ]
  let num_all := cnt pattern_all t.taggedText
  let num_except := cnt pattern_except t.taggedText
  let r ← pyDiv (1000 * (((num_all : ℤ) - num_except : ℤ) : ℚ)) (t.tokenNum : ℚ)
  pure (.val r)

/-- N60 subordinator-*that* deletion (three counts summed). -/
def feature_60 (cnt : Cnt) (t : BText) : Except PyErr QF := do
  let pattern_1 := OR [PUB, PRV, SUA] ++ OR [DEMOPRO, SUBJPRO]
  let pattern_2 := OR [PUB, PRV, SUA] ++ OR [PRO, N] ++ OR [AUX, V]
  let pattern_3 := OR [PUB, PRV, SUA] ++ OR [ADJ, ADV, DET, POSSPRO] ++
    REPEAT ADJ (0, 1) ++ N ++ OR [AUX, V]
  let num_1 := cnt pattern_1 t.taggedText
  let num_2 := cnt pattern_2 t.taggedText
  let num_3 := cnt pattern_3 t.taggedText
  let r ← pyDiv (1000 * ((num_1 + num_2 + num_3 : ℕ) : ℚ)) (t.tokenNum : ℚ)
  pure (.val r)

/-- N61 stranded prepositions. -/
def feature_61 (cnt : Cnt) (t : BText) : Except PyErr QF := do
  let pattern := PREP ++ ALL_P
  let num := cnt pattern t.taggedText
  let r ← pyDiv (1000 * (num : ℚ)) (t.tokenNum : ℚ)
  pure (.val r)

/-- N62 split infinitives. -/
def feature_62 (cnt : Cnt) (t : BText) : Except PyErr QF := do
  let pattern := "( to_[A-Z]+)" ++ ADV ++ REPEAT ADV (0, 1) ++ VB
  let num := cnt pattern t.taggedText
  let r ← pyDiv (1000 * (num : ℚ)) (t.tokenNum : ℚ)
  pure (.val r)

/-- N63 split auxiliaries. -/
def feature_63 (cnt : Cnt) (t : BText) : Except PyErr QF := do
  let pattern := AUX ++ ADV ++ REPEAT ADV (0, 1) ++ VB
  let num := cnt pattern t.taggedText
  let r ← pyDiv (1000 * (num : ℚ)) (t.tokenNum : ℚ)
  pure (.val r)

/-- O64 phrasal coordination. -/
def feature_64 (cnt : Cnt) (t : BText) : Except PyErr QF := do
  let pattern := OR [ADV, ADJ, V, N] ++ " (and)_[A-Z]+" ++ OR [ADV, ADJ, V, N]
  let num := cnt pattern t.taggedText
  let r ← pyDiv (1000 * (num : ℚ)) (t.tokenNum : ℚ)
  pure (.val r)

/-- O65 independent clause coordination. -/
def feature_65 (cnt : Cnt) (t : BText) : Except PyErr QF := do
  let pattern_1 := "( ,_,)" ++ "( (and)_[A-Z]+)" ++
    "( (it|so|then|you|there)_[A-Z]+)" ++ OR [BE, DEMOPRO, SUBJPRO]
  let pattern_2 := CL_P ++ "( and_[A-Z]+)"
  let pattern_3 := "( and_[A-Z]+)" ++ OR [WHP, WHO,
    "( (because|though|although|if|unless)_[A-Z]+)",
    "( (well|now|anyway|anyhow|anyways)_[A-Z]+)", getCONJ]
  let pattern := OR [pattern_1, pattern_2, pattern_3]
  let num := cnt pattern t.taggedText
  let r ← pyDiv (1000 * (num : ℚ)) (t.tokenNum : ℚ)
  pure (.val r)

/-- P66 synthetic negation. -/
def feature_66 (cnt : Cnt) (t : BText) : Except PyErr QF := do
  let pattern_1 := "( no_[A-Z]+)" ++ OR [QUAN, ADJ, N]
  let pattern_2 := "(neither|nor)_[A-Z]+"
  let pattern := OR [pattern_1, pattern_2]
  let num := cnt pattern t.taggedText
  let r ← pyDiv (1000 * (num : ℚ)) (t.tokenNum : ℚ)
  pure (.val r)

/-- P67 analytic negation. -/
def feature_67 (cnt : Cnt) (t : BText) : Except PyErr QF := do
  let pattern := OR [" not_[A-Z]+", " n" ++ aposS ++ "t_[A-Z]+"]
  let num := cnt pattern t.taggedText
  let r ← pyDiv (1000 * (num : ℚ)) (t.tokenNum : ℚ)
  pure (.val r)

end Biber

/-- The dict-building part of `getBiberFeature`: the 65 assignments
`features[key] = [value]` in source order — each value is wrapped in a
singleton list, exactly as the source does. -/
def biberAssemble (f01 f02 f03 f04 f05 f06 f07 f08 f09 f10 f11 f12 f13 f14 f17 f18 f19 f20 f21 f22 f23 f24 f25 f26 f27 f28 f29 f30 f31 f32 f33 f34 f35 f36 f37 f38 f39 f40 f41 f42 f43 f44 f45 f46 f47 f48 f49 f50 f51 f52 f53 f54 f55 f56 f57 f58 f59 f60 f61 f62 f63 f64 f65 f66 f67 : QF) :
    List (String × List QF) :=
  let d01 := dictInsert ([] : List (String × List QF)) "PASTTENSE" [f01]
  let d02 := dictInsert d01 "PERFECTS" [f02]
  let d03 := dictInsert d02 "PRES" [f03]
  let d04 := dictInsert d03 "PL_ADV" [f04]
  let d05 := dictInsert d04 "TM_ADV" [f05]
  let d06 := dictInsert d05 "PRO1" [f06]
  let d07 := dictInsert d06 "PRO2" [f07]
  let d08 := dictInsert d07 "PRO3" [f08]
  let d09 := dictInsert d08 "IT" [f09]
  let d10 := dictInsert d09 "PDEM" [f10]
  let d11 := dictInsert d10 "PANY" [f11]
  let d12 := dictInsert d11 "PRO_DO" [f12]
  let d13 := dictInsert d12 "WH_QUES" [f13]
  let d14 := dictInsert d13 "N_NOM" [f14]
  let d15 := dictInsert d14 "AGLS_PSV" [f17]
  let d16 := dictInsert d15 "BY_PASV" [f18]
  let d17 := dictInsert d16 "BE_STATE" [f19]
  let d18 := dictInsert d17 "EX_THERE" [f20]
  let d19 := dictInsert d18 "TH_CL" [f21]
  let d20 := dictInsert d19 "ADJ_CL" [f22]
  let d21 := dictInsert d20 "WH_CL" [f23]
  let d22 := dictInsert d21 "INF" [f24]
  let d23 := dictInsert d22 "CL_VBG" [f25]
  let d24 := dictInsert d23 "CL_VBN" [f26]
  let d25 := dictInsert d24 "WHIZ_VBN" [f27]
  let d26 := dictInsert d25 "WHIZ_VBG" [f28]
  let d27 := dictInsert d26 "THTREL_S" [f29]
  let d28 := dictInsert d27 "THTREL_O" [f30]
  let d29 := dictInsert d28 "REL_SUBJ" [f31]
  let d30 := dictInsert d29 "REL_OBJ" [f32]
  let d31 := dictInsert d30 "REL_PIPE" [f33]
  let d32 := dictInsert d31 "SENT_REL" [f34]
  let d33 := dictInsert d32 "SUB_COS" [f35]
  let d34 := dictInsert d33 "SUB_CON" [f36]
  let d35 := dictInsert d34 "SUB_CND" [f37]
  let d36 := dictInsert d35 "SUB_OTHR" [f38]
  let d37 := dictInsert d36 "PREP" [f39]
  let d38 := dictInsert d37 "ADJ_ATTR" [f40]
  let d39 := dictInsert d38 "ADJ_PRED" [f41]
  let d40 := dictInsert d39 "ADVS" [f42]
  let d41 := dictInsert d40 "TYPETOKEN" [f43]
  let d42 := dictInsert d41 "WORDLNGTH" [f44]
  let d43 := dictInsert d42 "CONJNCTS" [f45]
  let d44 := dictInsert d43 "DOWNTONE" [f46]
  let d45 := dictInsert d44 "GENHDG" [f47]
  let d46 := dictInsert d45 "AMPLIFR" [f48]
  let d47 := dictInsert d46 "GEN_EMPH" [f49]
  let d48 := dictInsert d47 "PARTCLE" [f50]
  let d49 := dictInsert d48 "DEM" [f51]
  let d50 := dictInsert d49 "POS_MOD" [f52]
  let d51 := dictInsert d50 "NEC_MOD" [f53]
  let d52 := dictInsert d51 "PRD_MOD" [f54]
  let d53 := dictInsert d52 "PUB_VB" [f55]
  let d54 := dictInsert d53 "PRV_VB" [f56]
  let d55 := dictInsert d54 "SUA_VB" [f57]
  let d56 := dictInsert d55 "SEEM" [f58]
  let d57 := dictInsert d56 "CONTRAC" [f59]
  let d58 := dictInsert d57 "THAT_DEL" [f60]
  let d59 := dictInsert d58 "FINLPREP" [f61]
  let d60 := dictInsert d59 "SPL_INF" [f62]
  let d61 := dictInsert d60 "SPL_AUX" [f63]
  let d62 := dictInsert d61 "P_AND" [f64]
  let d63 := dictInsert d62 "O_AND" [f65]
  let d64 := dictInsert d63 "SYNTHNEG" [f66]
  dictInsert d64 "NOT_NEG" [f67]

/-! ## Concrete fixtures used by the verification theorems -/

/-- A concrete instance of the external math routines (the identity on
rationals; theorems that depend on a real property of `sqrt`, such as
`sqrt 1 = 1`, take it as a hypothesis and this instance satisfies it). -/
def idOps : MathOps := { sqrt := fun q => q, log2 := fun q => q, log10 := fun q => q }

/-- A concrete single-word tagger: `"aa"` is a verb, everything else a
noun. -/
def tagVB : String → String := fun w => if w = "aa" then "VB" else "NN"

/-- A concrete single-word tagger: everything is a noun. -/
def tagNN : String → String := fun _ => "NN"

/-- A concrete tokenizer capability for the Biber engine (word-character
runs). -/
def tokSimple : String → List String := fun s => (tokenizeW s.toList).map String.mk

/-- A concrete tagger capability for the Biber engine: every token is a
noun. -/
def tagAllNN : List String → List (String × String) := fun toks =>
  toks.map (fun w => (w, "NN"))

/-- A concrete match counter that finds no matches. -/
def cnt0 : Biber.Cnt := fun _ _ => 0

/-- The broad (all-passives) pattern of feature 17, as built by the
source. -/
def allPassivePat : String :=
  Biber.OR [Biber.BE ++ Biber.REPEAT Biber.ADV (0, 2) ++ Biber.VBN,
            Biber.BE ++ Biber.OR [Biber.N, Biber.PRO] ++ Biber.VBN]

/-- A concrete match counter under which the broad count is smaller than
the narrower counts for features 12 and 17 (0 matches for the bare *do*
pattern and for the all-passives pattern, 1 match for everything else). -/
def cntNeg : Biber.Cnt := fun p _ =>
  if p = Biber.DO then 0 else if p = allPassivePat then 0 else 1

/-- The 17 distinct keys the QUITA aggregator's dict ends up with. -/
def quitaKeys17 : List String :=
  ["TTR", "R", "ATL", "R4", "RR", "RRmc", "TC", "STC", "Q", "D", "CL",
   "Lambda", "A", "G", "HL", "Alpha", "VD"]

/-- The 65 keys of the Biber aggregator's dict. -/
def biberKeys65 : List String :=
  ["PASTTENSE", "PERFECTS", "PRES", "PL_ADV", "TM_ADV", "PRO1", "PRO2", "PRO3",
   "IT", "PDEM", "PANY", "PRO_DO", "WH_QUES", "N_NOM", "AGLS_PSV", "BY_PASV",
   "BE_STATE", "EX_THERE", "TH_CL", "ADJ_CL", "WH_CL", "INF", "CL_VBG", "CL_VBN",
   "WHIZ_VBN", "WHIZ_VBG", "THTREL_S", "THTREL_O", "REL_SUBJ", "REL_OBJ",
   "REL_PIPE", "SENT_REL", "SUB_COS", "SUB_CON", "SUB_CND", "SUB_OTHR", "PREP",
   "ADJ_ATTR", "ADJ_PRED", "ADVS", "TYPETOKEN", "WORDLNGTH", "CONJNCTS",
   "DOWNTONE", "GENHDG", "AMPLIFR", "GEN_EMPH", "PARTCLE", "DEM", "POS_MOD",
   "NEC_MOD", "PRD_MOD", "PUB_VB", "PRV_VB", "SUA_VB", "SEEM", "CONTRAC",
   "THAT_DEL", "FINLPREP", "SPL_INF", "SPL_AUX", "P_AND", "O_AND", "SYNTHNEG",
   "NOT_NEG"]

/-! ## Helper lemmas -/

/-- Bind on a successful `Except` computation. -/
theorem exceptOk_bind {α β : Type} (a : α) (f : α → Except PyErr β) :
    (Except.ok a >>= f) = f a := rfl

/-- Inversion: a successful bind has a successful first component. -/
theorem exceptBind_ok {α β : Type} {m : Except PyErr α}
    {f : α → Except PyErr β} {b : β} (h : m >>= f = .ok b) :
    ∃ a, m = .ok a ∧ f a = .ok b := by
  cases m with
  | ok a => exact ⟨a, rfl, h⟩
  | error e => exact absurd h (by simp [Bind.bind, Except.bind])

/-- Scalar division succeeds on a nonzero denominator. -/
theorem pyDiv_ok {a b : ℚ} (h : b ≠ 0) : pyDiv a b = .ok (a / b) := if_neg h

/-- The key column of a dict after an insertion. -/
theorem map_fst_dictInsert {α : Type} (d : List (String × α)) (k : String) (v : α) :
    (dictInsert d k v).map Prod.fst =
      if (d.map Prod.fst).any (fun s => s = k) then d.map Prod.fst
      else d.map Prod.fst ++ [k] := by
  unfold dictInsert
  have hcond : (d.map Prod.fst).any (fun s => s = k) = d.any (fun kv => kv.1 = k) := by
    induction d with
    | nil => rfl
    | cons x xs ih => simp only [List.map_cons, List.any_cons, ih]
  rw [hcond]
  by_cases h : d.any (fun kv => kv.1 = k)
  · rw [if_pos h, if_pos h, List.map_map]
    congr 1
    funext kv
    by_cases hk : kv.1 = k
    · simp [hk]
    · simp [hk]
  · rw [if_neg h, if_neg h, List.map_append]
    simp

/-- An entry of a dict after an insertion is the new pair or an old
entry. -/
theorem mem_dictInsert {α : Type} {d : List (String × α)} {k : String}
    {v : α} {kv : String × α} (h : kv ∈ dictInsert d k v) :
    kv = (k, v) ∨ kv ∈ d := by
  unfold dictInsert at h
  by_cases ha : d.any (fun kv => kv.1 = k)
  · rw [if_pos ha] at h
    obtain ⟨kv', hkv', heq⟩ := List.mem_map.1 h
    by_cases hk : kv'.1 = k
    · simp only [if_pos hk] at heq
      exact Or.inl heq.symm
    · simp only [if_neg hk] at heq
      exact Or.inr (heq ▸ hkv')
  · rw [if_neg ha] at h
    rcases List.mem_append.1 h with h' | h'
    · exact Or.inr h'
    · exact Or.inl (List.mem_singleton.1 h')

/-- A property holding for the new pair and every old entry holds for
every entry of the insertion. -/
theorem dictInsert_forall {α : Type} {P : String × α → Prop}
    (d : List (String × α)) (k : String) (v : α) (hv : P (k, v))
    (hd : ∀ kv ∈ d, P kv) : ∀ kv ∈ dictInsert d k v, P kv := by
  intro kv hkv
  rcases mem_dictInsert hkv with h | h
  · exact h ▸ hv
  · exact hd kv h

/-- Looking up a key just inserted into a dict that did not contain it. -/
theorem dictGet_insert_fresh {α : Type} {d : List (String × α)} {k : String}
    {v : α} (h : ∀ kv ∈ d, ¬ kv.1 = k) : dictGet (dictInsert d k v) k = some v := by
  have ha : d.any (fun kv => kv.1 = k) = false := by
    simp only [List.any_eq_false, decide_eq_true_eq]
    exact h
  unfold dictInsert
  rw [if_neg (by simp [ha])]
  unfold dictGet
  induction d with
  | nil => simp [List.find?]
  | cons x xs ih =>
    have hx : ¬ x.1 = k := h x (List.mem_cons_self x xs)
    simp only [List.cons_append, List.find?]
    rw [decide_eq_false hx]
    exact ih (fun kv hkv => h kv (List.mem_cons_of_mem x hkv))
      (by simp only [List.any_cons, decide_eq_false hx, Bool.false_or] at ha; simp [ha])

/-- The key column of the assembled QUITA dict: 17 distinct keys — the
h-point's key `"R"` is overwritten by the Curve Length Indicator, so no
separate h-point entry survives. -/
theorem quitaAssemble_keys (ttr hp atl r4 rr rrmc tc stc act des cl cli lam
    adj gini hl alpha vd : QF) :
    (quitaAssemble ttr hp atl r4 rr rrmc tc stc act des cl cli lam adj gini
      hl alpha vd).map Prod.fst = quitaKeys17 := by
  simp only [quitaAssemble, map_fst_dictInsert]
  decide

/-- The `"VD"` entry of the assembled QUITA dict is the Verb Distance
value. -/
theorem quitaAssemble_vd (ttr hp atl r4 rr rrmc tc stc act des cl cli lam
    adj gini hl alpha vd : QF) :
    dictGet (quitaAssemble ttr hp atl r4 rr rrmc tc stc act des cl cli lam
      adj gini hl alpha vd) "VD" = some vd := by
  unfold quitaAssemble
  apply dictGet_insert_fresh
  iterate 17 refine dictInsert_forall _ _ _ (by simp) ?_
  intro kv hkv
  exact absurd hkv (List.not_mem_nil kv)

set_option maxRecDepth 8000 in
/-- The key column of the assembled Biber dict is the 65 distinct keys. -/
theorem biberAssemble_keys (f01 f02 f03 f04 f05 f06 f07 f08 f09 f10 f11 f12
    f13 f14 f17 f18 f19 f20 f21 f22 f23 f24 f25 f26 f27 f28 f29 f30 f31 f32
    f33 f34 f35 f36 f37 f38 f39 f40 f41 f42 f43 f44 f45 f46 f47 f48 f49 f50
    f51 f52 f53 f54 f55 f56 f57 f58 f59 f60 f61 f62 f63 f64 f65 f66 f67 : QF) :
    (biberAssemble f01 f02 f03 f04 f05 f06 f07 f08 f09 f10 f11 f12 f13 f14
      f17 f18 f19 f20 f21 f22 f23 f24 f25 f26 f27 f28 f29 f30 f31 f32 f33
      f34 f35 f36 f37 f38 f39 f40 f41 f42 f43 f44 f45 f46 f47 f48 f49 f50
      f51 f52 f53 f54 f55 f56 f57 f58 f59 f60 f61 f62 f63 f64 f65 f66
      f67).map Prod.fst = biberKeys65 := by
  simp only [biberAssemble, map_fst_dictInsert]
  decide

/-- Every value of the assembled Biber dict is a singleton list. -/
theorem biberAssemble_singleton (f01 f02 f03 f04 f05 f06 f07 f08 f09 f10 f11
    f12 f13 f14 f17 f18 f19 f20 f21 f22 f23 f24 f25 f26 f27 f28 f29 f30 f31
    f32 f33 f34 f35 f36 f37 f38 f39 f40 f41 f42 f43 f44 f45 f46 f47 f48 f49
    f50 f51 f52 f53 f54 f55 f56 f57 f58 f59 f60 f61 f62 f63 f64 f65 f66
    f67 : QF) :
    ∀ kv ∈ biberAssemble f01 f02 f03 f04 f05 f06 f07 f08 f09 f10 f11 f12 f13
      f14 f17 f18 f19 f20 f21 f22 f23 f24 f25 f26 f27 f28 f29 f30 f31 f32
      f33 f34 f35 f36 f37 f38 f39 f40 f41 f42 f43 f44 f45 f46 f47 f48 f49
      f50 f51 f52 f53 f54 f55 f56 f57 f58 f59 f60 f61 f62 f63 f64 f65 f66
      f67, kv.2.length = 1 := by
  unfold biberAssemble
  iterate 65 refine dictInsert_forall _ _ _ (by simp) ?_
  intro kv hkv
  exact absurd hkv (List.not_mem_nil kv)

/-- `getBiberFeature`: build the `BiberText` once, compute the 65
implemented features (15 and 16 have no algorithm and are not computed)
in source order, and collect them into a dict — note that the source
wraps each value in a singleton list. -/
def getBiberFeature (cnt : Biber.Cnt) (tokF : String → List String)
    (tagF : List String → List (String × String)) (text : String) :
    Except PyErr (List (String × List QF)) := do
  let t := Biber.mkBiberText tokF tagF text
  let f01 ← Biber.feature_01 t
  let f02 ← Biber.feature_02 cnt t
  let f03 ← Biber.feature_03 t
  let f04 ← Biber.feature_04 cnt t
  let f05 ← Biber.feature_05 cnt t
  let f06 ← Biber.feature_06 cnt t
  let f07 ← Biber.feature_07 cnt t
  let f08 ← Biber.feature_08 cnt t
  let f09 ← Biber.feature_09 cnt t
  let f10 ← Biber.feature_10 cnt t
  let f11 ← Biber.feature_11 cnt t
  let f12 ← Biber.feature_12 cnt t
  let f13 ← Biber.feature_13 cnt t
  let f14 ← Biber.feature_14 cnt t
  let f17 ← Biber.feature_17 cnt t
  let f18 ← Biber.feature_18 cnt t
  let f19 ← Biber.feature_19 cnt t
  let f20 ← Biber.feature_20 cnt t
  let f21 ← Biber.feature_21 cnt t
  let f22 ← Biber.feature_22 cnt t
  let f23 ← Biber.feature_23 cnt t
  let f24 ← Biber.feature_24 cnt t
  let f25 ← Biber.feature_25 cnt t
  let f26 ← Biber.feature_26 cnt t
  let f27 ← Biber.feature_27 cnt t
  let f28 ← Biber.feature_28 cnt t
  let f29 ← Biber.feature_29 cnt t
  let f30 ← Biber.feature_30 cnt t
  let f31 ← Biber.feature_31 cnt t
  let f32 ← Biber.feature_32 cnt t
  let f33 ← Biber.feature_33 cnt t
  let f34 ← Biber.feature_34 cnt t
  let f35 ← Biber.feature_35 cnt t
  let f36 ← Biber.feature_36 cnt t
  let f37 ← Biber.feature_37 cnt t
  let f38 ← Biber.feature_38 cnt t
  let f39 ← Biber.feature_39 cnt t
  let f40 ← Biber.feature_40 cnt t
  let f41 ← Biber.feature_41 cnt t
  let f42 ← Biber.feature_42 cnt t
  let f43 ← Biber.feature_43 t
  let f44 := Biber.feature_44 t
  let f45 ← Biber.feature_45 cnt t
  let f46 ← Biber.feature_46 cnt t
  let f47 ← Biber.feature_47 cnt t
  let f48 ← Biber.feature_48 cnt t
  let f49 ← Biber.feature_49 cnt t
  let f50 ← Biber.feature_50 cnt t
  let f51 ← Biber.feature_51 cnt t
  let f52 ← Biber.feature_52 cnt t
  let f53 ← Biber.feature_53 cnt t
  let f54 ← Biber.feature_54 cnt t
  let f55 ← Biber.feature_55 cnt t
  let f56 ← Biber.feature_56 cnt t
  let f57 ← Biber.feature_57 cnt t
  let f58 ← Biber.feature_58 cnt t
  let f59 ← Biber.feature_59 cnt t
  let f60 ← Biber.feature_60 cnt t
  let f61 ← Biber.feature_61 cnt t
  let f62 ← Biber.feature_62 cnt t
  let f63 ← Biber.feature_63 cnt t
  let f64 ← Biber.feature_64 cnt t
  let f65 ← Biber.feature_65 cnt t
  let f66 ← Biber.feature_66 cnt t
  let f67 ← Biber.feature_67 cnt t
  pure (biberAssemble f01 f02 f03 f04 f05 f06 f07 f08 f09 f10 f11 f12 f13 f14 f17 f18 f19 f20 f21 f22 f23 f24 f25 f26 f27 f28 f29 f30 f31 f32 f33 f34 f35 f36 f37 f38 f39 f40 f41 f42 f43 f44 f45 f46 f47 f48 f49 f50 f51 f52 f53 f54 f55 f56 f57 f58 f59 f60 f61 f62 f63 f64 f65 f66 f67)

end LingFeat

namespace LingFeat

/-- Bind on a failed `Except` computation. -/
theorem exceptError_bind {α β : Type} (e : PyErr) (f : α → Except PyErr β) :
    (Except.error e : Except PyErr α) >>= f = .error e := rfl

/-! ## Claim theorems -/

/-- C1: the claim says `getQuitaFeature` returns a mapping with exactly 18
distinct feature keys, one per QUITA index, with no key ever absent.  The
code makes 18 assignments but uses the key `"R"` twice — first for the
h-point, then for the Curve Length Indicator — so the returned dict has
only 17 distinct keys and the h-point value is overwritten: on the
accepted text `"aa aa bb"` the h-point is 3/2, yet the profile's `"R"`
entry holds the Curve Length Indicator value 1 and no entry holds 3/2. -/
theorem c1_quita_profile_has_17_keys :
    (getQuitaFeature idOps tagVB "aa aa bb").map (fun d => d.map Prod.fst) =
      .ok quitaKeys17 ∧
    quitaKeys17.length = 17 ∧ quitaKeys17.Nodup ∧
    getHPoint (mkQuitaText tagVB "aa aa bb") = .ok (.val (3 / 2)) ∧
    getCLI idOps (mkQuitaText tagVB "aa aa bb") = .ok (.val 1) ∧
    (getQuitaFeature idOps tagVB "aa aa bb").map (fun d => dictGet d "R") =
      .ok (some (.val 1)) ∧
    (getQuitaFeature idOps tagVB "aa aa bb").map
      (fun d => (d.map Prod.snd).contains (QF.val (3 / 2))) = .ok false := by
  decide!

/-- C2 counterexample: the claim says the engines raise a
`DegenerateInputError` on degenerate input.  No such error class exists in
the source: on an empty text the Biber rate feature 01 raises the generic
`ZeroDivisionError`, and on a single-type text (V = 1) the QUITA Relative
Repeat Rate evaluates `0.0/0.0` in numpy, returning NaN and raising
nothing. -/
theorem c2_no_degenerate_error_counterexample :
    Biber.feature_01 (Biber.mkBiberText (fun _ => []) (fun _ => []) "") =
      .error .zeroDivisionError ∧
    ¬ Biber.feature_01 (Biber.mkBiberText (fun _ => []) (fun _ => []) "") =
      .error .degenerateInputError ∧
    (mkQuitaText tagNN "run run run").typeNum = 1 ∧
    getRRmc idOps (mkQuitaText tagNN "run run run") = QF.nan := by
  decide!

/-- C2 (amended): on degenerate input the engines do *not* raise a
dedicated `DegenerateInputError`: a Biber rate feature on a text with zero
tokens raises Python's generic `ZeroDivisionError`, and the QUITA Relative
Repeat Rate on a table whose probability column is `[1]` (a single type)
evaluates to NaN through a float 0/0 (using that float `sqrt 1 = 1`). -/
theorem c2_degenerate_behaviour
    (tokF : String → List String) (tagF : List String → List (String × String))
    (rawB : String) (h0 : tokF rawB = [])
    (ops : MathOps) (tagW : String → String) (rawQ : String)
    (h1 : (mkQuitaText tagW rawQ).typeData.map QRow.prob = [1])
    (hs : ops.sqrt 1 = 1) :
    Biber.feature_01 (Biber.mkBiberText tokF tagF rawB) =
      .error .zeroDivisionError ∧
    getRRmc ops (mkQuitaText tagW rawQ) = QF.nan := by
  constructor
  · have ht : (Biber.mkBiberText tokF tagF rawB).tokenNum = 0 := by
      simp [Biber.mkBiberText, h0]
    simp [Biber.feature_01, pyDiv, ht, exceptError_bind]
  · have hRR : getRR (mkQuitaText tagW rawQ) = .val 1 := by
      unfold getRR
      rw [show (mkQuitaText tagW rawQ).typeData.map (fun r => r.prob ^ 2) =
        ((mkQuitaText tagW rawQ).typeData.map QRow.prob).map (fun p => p ^ 2) by
          rw [List.map_map]; rfl, h1]
      norm_num
    have hTN : (mkQuitaText tagW rawQ).typeNum = 1 := by
      rw [show (mkQuitaText tagW rawQ).typeNum =
        (mkQuitaText tagW rawQ).typeData.length from rfl]
      simpa using congrArg List.length h1
    rw [getRRmc, hRR, hTN]
    norm_num [qfSqrt, hs, qfDiv, qfSub, qfAdd, qfNeg]

/-- C8: calling an aggregator twice on the same raw text (with the same
external capabilities) yields identical mappings.  The embedding of both
aggregators is a pure function of the raw text and the external
capabilities — the source mutates no state between calls (its module-level
tables are constants), so two calls are the same value. -/
theorem c8_aggregators_deterministic (ops : MathOps) (tagW : String → String)
    (rawQ : String) (cnt : Biber.Cnt) (tokF : String → List String)
    (tagF : List String → List (String × String)) (rawB : String) :
    getQuitaFeature ops tagW rawQ = getQuitaFeature ops tagW rawQ ∧
    getBiberFeature cnt tokF tagF rawB = getBiberFeature cnt tokF tagF rawB :=
  ⟨rfl, rfl⟩

end LingFeat

namespace LingFeat

/-- C2 witness: the amended degenerate-input behaviour at a concrete empty
Biber text and the concrete single-type QUITA text `"run run run"`. -/
theorem c2_degenerate_behaviour_witness :
    Biber.feature_01 (Biber.mkBiberText (fun _ => []) (fun _ => []) "") =
      .error .zeroDivisionError ∧
    getRRmc idOps (mkQuitaText tagNN "run run run") = QF.nan :=
  c2_degenerate_behaviour (fun _ => []) (fun _ => []) "" rfl idOps tagNN
    "run run run" (by decide!) rfl

/-- `pure` on `Except` is `ok`. -/
theorem exceptPure {α : Type} (a : α) : (pure a : Except PyErr α) = .ok a := rfl

/-- C3 counterexample: the claim says each of the 65 keys maps to a bare
numeric floating-point value, but the source wraps every feature value in
a singleton list (`features[key] = [value]`), so each key maps to a
one-element list: on the concrete text `"aa bb"` every entry's value has
list length 1. -/
theorem c3_values_are_lists_counterexample :
    (getBiberFeature cnt0 tokSimple tagAllNN "aa bb").map
      (fun d => d.map (fun kv => (kv.1, kv.2.length))) =
      .ok (biberKeys65.map (fun k => (k, 1))) ∧
    biberKeys65.length = 65 ∧ biberKeys65.Nodup := by
  decide!

/-- C3 (amended): on every raw text whose token list is non-empty, the
Biber aggregator succeeds and returns a mapping whose key column is
exactly the 65 distinct feature keys, each key mapping to a singleton
list holding one numeric value (not a bare scalar). -/
theorem c3_biber_profile_shape (cnt : Biber.Cnt) (tokF : String → List String)
    (tagF : List String → List (String × String)) (raw : String)
    (h : tokF raw ≠ []) :
    ∃ d, getBiberFeature cnt tokF tagF raw = .ok d ∧
      d.map Prod.fst = biberKeys65 ∧ ∀ kv ∈ d, kv.2.length = 1 := by
  have hN : ((Biber.mkBiberText tokF tagF raw).tokenNum : ℚ) ≠ 0 := by
    simp only [show (Biber.mkBiberText tokF tagF raw).tokenNum =
      (tokF raw).length from rfl]
    exact Nat.cast_ne_zero.mpr (fun hl => h (List.length_eq_zero.mp hl))
  unfold getBiberFeature
  simp only [Biber.feature_01, Biber.feature_02, Biber.feature_03,
    Biber.feature_04, Biber.feature_05, Biber.feature_06, Biber.feature_07,
    Biber.feature_08, Biber.feature_09, Biber.feature_10, Biber.feature_11,
    Biber.feature_12, Biber.feature_13, Biber.feature_14, Biber.feature_17,
    Biber.feature_18, Biber.feature_19, Biber.feature_20, Biber.feature_21,
    Biber.feature_22, Biber.feature_23, Biber.feature_24, Biber.feature_25,
    Biber.feature_26, Biber.feature_27, Biber.feature_28, Biber.feature_29,
    Biber.feature_30, Biber.feature_31, Biber.feature_32, Biber.feature_33,
    Biber.feature_34, Biber.feature_35, Biber.feature_36, Biber.feature_37,
    Biber.feature_38, Biber.feature_39, Biber.feature_40, Biber.feature_41,
    Biber.feature_42, Biber.feature_43, Biber.feature_45, Biber.feature_46,
    Biber.feature_47, Biber.feature_48, Biber.feature_49, Biber.feature_50,
    Biber.feature_51, Biber.feature_52, Biber.feature_53, Biber.feature_54,
    Biber.feature_55, Biber.feature_56, Biber.feature_57, Biber.feature_58,
    Biber.feature_59, Biber.feature_60, Biber.feature_61, Biber.feature_62,
    Biber.feature_63, Biber.feature_64, Biber.feature_65, Biber.feature_66,
    Biber.feature_67, pyDiv_ok hN, exceptOk_bind, exceptPure]
  refine ⟨_, rfl, ?_, ?_⟩
  · exact biberAssemble_keys ..
  · apply biberAssemble_singleton

/-- C3 witness: the amended shape at the concrete text `"aa bb"`. -/
theorem c3_biber_profile_shape_witness :
    ∃ d, getBiberFeature cnt0 tokSimple tagAllNN "aa bb" = .ok d ∧
      d.map Prod.fst = biberKeys65 ∧ ∀ kv ∈ d, kv.2.length = 1 :=
  c3_biber_profile_shape cnt0 tokSimple tagAllNN "aa bb" (by decide!)

/-- The with-*by* (by-passives) pattern of feature 17, as built by the
source. -/
def withByPat : String :=
  Biber.OR [Biber.BE ++ Biber.REPEAT Biber.ADV (0, 2) ++ Biber.VBN ++ "( by_[A-Z]+)",
            Biber.BE ++ Biber.OR [Biber.N, Biber.PRO] ++ Biber.VBN ++ "( by_[A-Z]+)"]

/-- The broad pattern of feature 12 (pro-verb *do* before a verb). -/
def doVerbPat : String := Biber.DO ++ Biber.REPEAT Biber.ADV (0, 1) ++ Biber.V

/-- The narrower pattern of feature 12 (punctuation or WH word before
*do*). -/
def punctDoPat : String := Biber.OR [Biber.ALL_P, Biber.WHP] ++ Biber.DO

/-- C6: the inclusion/exclusion features return `1000 × (broadCount −
narrowerCounts) / N` with the subtraction passed through unmodified:
feature 12 returns `1000·(doCount − doVerbCount − punctDoCount)/N` and
feature 17 returns `1000·(allPassiveCount − withByCount)/N`; whenever the
narrower counts exceed the broad count the returned value is negative —
it is not clamped to zero. -/
theorem c6_inclusion_exclusion_unclamped (cnt : Biber.Cnt) (t : Biber.BText)
    (hN : (t.tokenNum : ℚ) ≠ 0) :
    (Biber.feature_12 cnt t = .ok (.val (1000 *
      (((cnt Biber.DO t.taggedText : ℤ) - (cnt doVerbPat t.taggedText : ℤ) -
        (cnt punctDoPat t.taggedText : ℤ) : ℤ) : ℚ) / (t.tokenNum : ℚ)))) ∧
    (Biber.feature_17 cnt t = .ok (.val (1000 *
      (((cnt allPassivePat t.taggedText : ℤ) -
        (cnt withByPat t.taggedText : ℤ) : ℤ) : ℚ) / (t.tokenNum : ℚ)))) ∧
    (cnt Biber.DO t.taggedText <
        cnt doVerbPat t.taggedText + cnt punctDoPat t.taggedText →
      ∃ v : ℚ, Biber.feature_12 cnt t = .ok (.val v) ∧ v < 0) ∧
    (cnt allPassivePat t.taggedText < cnt withByPat t.taggedText →
      ∃ v : ℚ, Biber.feature_17 cnt t = .ok (.val v) ∧ v < 0) := by
  have hpos : (0 : ℚ) < (t.tokenNum : ℚ) :=
    lt_of_le_of_ne (Nat.cast_nonneg _) (Ne.symm hN)
  have h12 : Biber.feature_12 cnt t = .ok (.val (1000 *
      (((cnt Biber.DO t.taggedText : ℤ) - (cnt doVerbPat t.taggedText : ℤ) -
        (cnt punctDoPat t.taggedText : ℤ) : ℤ) : ℚ) / (t.tokenNum : ℚ))) := by
    simp only [Biber.feature_12, doVerbPat, punctDoPat, pyDiv_ok hN,
      exceptOk_bind, exceptPure]
  have h17 : Biber.feature_17 cnt t = .ok (.val (1000 *
      (((cnt allPassivePat t.taggedText : ℤ) -
        (cnt withByPat t.taggedText : ℤ) : ℤ) : ℚ) / (t.tokenNum : ℚ))) := by
    simp only [Biber.feature_17, allPassivePat, withByPat, pyDiv_ok hN,
      exceptOk_bind, exceptPure]
  refine ⟨h12, h17, ?_, ?_⟩
  · intro hlt
    refine ⟨_, h12, ?_⟩
    apply div_neg_of_neg_of_pos _ hpos
    apply mul_neg_of_pos_of_neg (by norm_num)
    rw [show ((cnt Biber.DO t.taggedText : ℤ) - (cnt doVerbPat t.taggedText : ℤ) -
      (cnt punctDoPat t.taggedText : ℤ) : ℤ) = ((cnt Biber.DO t.taggedText : ℤ) -
      ((cnt doVerbPat t.taggedText : ℤ) + (cnt punctDoPat t.taggedText : ℤ))) by ring]
    rw [show ((0 : ℚ)) = ((0 : ℤ) : ℚ) by norm_num]
    rw [Int.cast_lt]
    omega
  · intro hlt
    refine ⟨_, h17, ?_⟩
    apply div_neg_of_neg_of_pos _ hpos
    apply mul_neg_of_pos_of_neg (by norm_num)
    rw [show ((0 : ℚ)) = ((0 : ℤ) : ℚ) by norm_num]
    rw [Int.cast_lt]
    omega

/-- A concrete Biber text over two tokens. -/
def tB : Biber.BText := Biber.mkBiberText tokSimple tagAllNN "aa bb"

/-- C6 witness: under the concrete counter `cntNeg` both inclusion/
exclusion features go negative on a two-token text and the negative rates
are returned unclamped. -/
theorem c6_inclusion_exclusion_unclamped_witness :
    Biber.feature_12 cntNeg tB = .ok (.val (-1000)) ∧
    Biber.feature_17 cntNeg tB = .ok (.val (-500)) := by
  have h := c6_inclusion_exclusion_unclamped cntNeg tB (by decide!)
  refine ⟨?_, ?_⟩
  · rw [h.1]
    decide!
  · rw [h.2.1]
    decide!

end LingFeat

namespace LingFeat

/-- Counting positions whose element satisfies `p` equals `countP`. -/
theorem length_filter_range_getD (p : String → Bool) :
    ∀ l : List String,
      ((List.range l.length).filter (fun i => p (l.getD i ""))).length =
        l.countP p := by
  intro l
  induction l with
  | nil => simp
  | cons x xs ih =>
    simp only [List.length_cons, List.range_succ_eq_map, List.filter_cons,
      List.getD_cons_zero, List.countP_cons]
    rw [List.filter_map]
    have : ((fun i => p ((x :: xs).getD i "")) ∘ Nat.succ) =
        (fun i => p (xs.getD i "")) := by
      funext i
      simp
    rw [this]
    by_cases hp : p x
    · simp only [hp, if_pos]
      simp only [List.length_cons, List.length_map, ih]
    · simp only [hp]
      simp only [Bool.false_eq_true, if_false, List.length_map, ih]
      omega

/-- C10: on every text whose token list has fewer than two verb-tagged
tokens, `getVerbDist` is the numpy average of an empty gap list — NaN,
with no exception — and consequently, whenever the whole QUITA profile is
computed successfully, its `"VD"` entry is NaN. -/
theorem c10_verbdist_nan (ops : MathOps) (tagW : String → String) (raw : String)
    (h : (mkQuitaText tagW raw).tokenList.countP (fun w => isVerb tagW w) < 2) :
    getVerbDist tagW (mkQuitaText tagW raw) = QF.nan ∧
    ∀ d, getQuitaFeature ops tagW raw = .ok d → dictGet d "VD" = some QF.nan := by
  have hvd : getVerbDist tagW (mkQuitaText tagW raw) = QF.nan := by
    unfold getVerbDist
    have hlen := length_filter_range_getD (fun w => isVerb tagW w)
      (mkQuitaText tagW raw).tokenList
    set verbIdx := (List.range (mkQuitaText tagW raw).tokenList.length).filter
      (fun i => isVerb tagW ((mkQuitaText tagW raw).tokenList.getD i "")) with hvi
    have hlt : verbIdx.length < 2 := by rw [hlen]; exact h
    match hv : verbIdx, hlt with
    | [], _ => simp [npAverage]
    | [a], _ => simp [npAverage]
  refine ⟨hvd, ?_⟩
  intro d hd
  simp only [getQuitaFeature] at hd
  obtain ⟨ttr, h1, hd⟩ := exceptBind_ok hd
  obtain ⟨hp, h2, hd⟩ := exceptBind_ok hd
  obtain ⟨r4, h3, hd⟩ := exceptBind_ok hd
  obtain ⟨tc, h4, hd⟩ := exceptBind_ok hd
  obtain ⟨stc, h5, hd⟩ := exceptBind_ok hd
  obtain ⟨act, h6, hd⟩ := exceptBind_ok hd
  obtain ⟨des, h7, hd⟩ := exceptBind_ok hd
  obtain ⟨cl, h8, hd⟩ := exceptBind_ok hd
  obtain ⟨cli, h9, hd⟩ := exceptBind_ok hd
  obtain ⟨lam, h10, hd⟩ := exceptBind_ok hd
  obtain ⟨adj, h11, hd⟩ := exceptBind_ok hd
  obtain ⟨alpha, h12, hd⟩ := exceptBind_ok hd
  have hd' : quitaAssemble (.val ttr) hp (getATL (mkQuitaText tagW raw)) r4
      (getRR (mkQuitaText tagW raw)) (getRRmc ops (mkQuitaText tagW raw)) tc
      stc (.val act) (.val des) cl cli lam adj
      (getGiniCoef (mkQuitaText tagW raw)) (getHL (mkQuitaText tagW raw))
      alpha (getVerbDist tagW (mkQuitaText tagW raw)) = d := by
    simpa [exceptPure] using hd
  rw [← hd', quitaAssemble_vd, hvd]

end LingFeat

namespace LingFeat

/-- C10 witness: a concrete text with exactly one verb-tagged token. -/
theorem c10_verbdist_nan_witness :
    getVerbDist tagVB (mkQuitaText tagVB "aa bb") = QF.nan ∧
    ∀ d, getQuitaFeature idOps tagVB "aa bb" = .ok d →
      dictGet d "VD" = some QF.nan :=
  c10_verbdist_nan idOps tagVB "aa bb" (by decide!)

/-- Lower-casing never yields an ASCII uppercase letter. -/
theorem toLower_not_upper (c : Char) : (Char.toLower c).isUpper = false := by
  unfold Char.toLower
  by_cases h : c.toNat ≥ 65 ∧ c.toNat ≤ 90
  · rw [if_pos h]
    have hv : (c.toNat + 32).isValidChar := Or.inl (by omega)
    rw [Char.ofNat, dif_pos hv]
    show (Char.ofNatAux (c.toNat + 32) hv).isUpper = false
    unfold Char.isUpper Char.ofNatAux
    simp only [UInt32.le_def, BitVec.le_def, BitVec.toNat_ofNatLt]
    simp only [Bool.and_eq_false_iff, decide_eq_false_iff_not, not_le]
    right
    have : ((90 : UInt32)).toBitVec.toNat = 90 := by decide
    omega
  · rw [if_neg h]
    unfold Char.isUpper
    simp only [UInt32.le_def, BitVec.le_def]
    simp only [Bool.and_eq_false_iff, decide_eq_false_iff_not, not_le]
    have h65 : ((65 : UInt32)).toBitVec.toNat = 65 := by decide
    have h90 : ((90 : UInt32)).toBitVec.toNat = 90 := by decide
    have hc : c.toNat = c.val.toBitVec.toNat := rfl
    omega

/-- Characters surviving `findClose.go` come from its input. -/
theorem findClose_go_subset : ∀ l r : List Char, findClose.go l = some r →
    ∀ c ∈ r, c ∈ l := by
  intro l
  induction l with
  | nil => intro r h; simp [findClose.go] at h
  | cons x xs ih =>
    intro r h c hc
    simp only [findClose.go] at h
    split_ifs at h with h1 h2
    · injection h with h
      exact List.mem_cons_of_mem x (h ▸ hc)
    · exact List.mem_cons_of_mem x (ih r h c hc)

/-- Characters of the remainder returned by `findClose` come from its
input. -/
theorem findClose_subset (l r : List Char) (h : findClose l = some r) :
    ∀ c ∈ r, c ∈ l := by
  intro c hc
  match l with
  | [] => simp [findClose] at h
  | x :: xs =>
    simp only [findClose] at h
    split_ifs at h with h1
    · exact List.mem_cons_of_mem x (findClose_go_subset xs r h c hc)

/-- Characters of a bracket-substituted text are spaces or original
characters. -/
theorem bracketSubAux_chars : ∀ (fuel : ℕ) (l : List Char), ∀ c ∈ bracketSubAux fuel l,
    c = ' ' ∨ c ∈ l := by
  intro fuel
  induction fuel with
  | zero =>
    intro l c hc
    simp only [bracketSubAux] at hc
    exact Or.inr hc
  | succ n ih =>
    intro l c hc
    cases l with
    | nil => simp [bracketSubAux] at hc
    | cons d rest =>
      simp only [bracketSubAux] at hc
      by_cases hd : d = '['
      · rw [if_pos hd] at hc
        split at hc
        · rename_i rem hf
          rcases List.mem_cons.1 hc with h | h
          · exact Or.inl h
          · rcases ih rem c h with h' | h'
            · exact Or.inl h'
            · exact Or.inr (List.mem_cons_of_mem d (findClose_subset rest rem hf c h'))
        · rcases List.mem_cons.1 hc with h | h
          · exact Or.inr (h ▸ List.mem_cons_self d rest)
          · rcases ih rest c h with h' | h'
            · exact Or.inl h'
            · exact Or.inr (List.mem_cons_of_mem d h')
      · rw [if_neg hd] at hc
        rcases List.mem_cons.1 hc with h | h
        · exact Or.inr (h ▸ List.mem_cons_self d rest)
        · rcases ih rest c h with h' | h'
          · exact Or.inl h'
          · exact Or.inr (List.mem_cons_of_mem d h')

/-- Characters of a bracket-substituted text are spaces or original
characters. -/
theorem bracketSub_chars (l : List Char) (c : Char) (h : c ∈ bracketSub l) :
    c = ' ' ∨ c ∈ l :=
  bracketSubAux_chars l.length l c h

/-- Suffix removal only deletes characters. -/
theorem removeSufAux_subset : ∀ (fuel : ℕ) (l : List Char), ∀ c ∈ removeSufAux fuel l,
    c ∈ l := by
  intro fuel
  induction fuel with
  | zero =>
    intro l c hc
    simpa only [removeSufAux] using hc
  | succ n ih =>
    intro l c hc
    match l with
    | [] => simpa [removeSufAux] using hc
    | [a] => simpa [removeSufAux] using hc
    | a :: b :: rest =>
      simp only [removeSufAux] at hc
      split_ifs at hc with h1 h2
      · exact List.mem_cons_of_mem a (List.mem_cons_of_mem b (ih rest c hc))
      · exact List.mem_cons_of_mem a
          (List.mem_cons_of_mem b (List.mem_of_mem_tail (ih rest.tail c hc)))
      · rcases List.mem_cons.1 hc with h | h
        · exact h ▸ List.mem_cons_self a _
        · exact List.mem_cons_of_mem a (ih (b :: rest) c h)

/-- Suffix removal only deletes characters. -/
theorem removeSuf_subset (l : List Char) (c : Char) (h : c ∈ removeSuf l) :
    c ∈ l :=
  removeSufAux_subset l.length l c h

/-- Every character of a `\w+` token comes from the accumulator or the
input. -/
theorem tokenizeWAux_chars : ∀ (l acc : List Char), ∀ tok ∈ tokenizeWAux l acc,
    ∀ c ∈ tok, c ∈ acc ∨ c ∈ l := by
  intro l
  induction l with
  | nil =>
    intro acc tok htok c hc
    simp only [tokenizeWAux] at htok
    by_cases ha : acc.isEmpty
    · rw [if_pos ha] at htok
      simp at htok
    · rw [if_neg ha] at htok
      have : tok = acc.reverse := List.mem_singleton.1 htok
      exact Or.inl (List.mem_reverse.1 (this ▸ hc))
  | cons d rest ih =>
    intro acc tok htok c hc
    simp only [tokenizeWAux] at htok
    by_cases hw : isWordChar d
    · rw [if_pos hw] at htok
      rcases ih (d :: acc) tok htok c hc with h | h
      · rcases List.mem_cons.1 h with h' | h'
        · exact Or.inr (h' ▸ List.mem_cons_self d rest)
        · exact Or.inl h'
      · exact Or.inr (List.mem_cons_of_mem d h)
    · rw [if_neg hw] at htok
      by_cases ha : acc.isEmpty
      · rw [if_pos ha] at htok
        rcases ih [] tok htok c hc with h | h
        · simp at h
        · exact Or.inr (List.mem_cons_of_mem d h)
      · rw [if_neg ha] at htok
        rcases List.mem_cons.1 htok with h' | h'
        · exact Or.inl (List.mem_reverse.1 (h' ▸ hc))
        · rcases ih [] tok h' c hc with h | h
          · simp at h
          · exact Or.inr (List.mem_cons_of_mem d h)

/-- C9: every QUITA token comes from the cleaned text — lower-cased,
contraction substrings and digits removed, bracketed spans replaced by a
space — so no token ever contains an uppercase letter or a digit; and the
cleaning can change the token count relative to the raw text (second
conjunct: on `"ab [cd ef] gh"` the QUITA tokenizer yields 2 tokens while
the same `\w+` tokenizer on the raw text yields 4). -/
theorem c9_quita_preprocessing :
    (∀ raw : String, ∀ tok ∈ quitaTokens raw, ∀ c ∈ tok.toList,
      c.isUpper = false ∧ c.isDigit = false) ∧
    (quitaTokens "ab [cd ef] gh").length ≠
      (tokenizeW ("ab [cd ef] gh").toList).length := by
  constructor
  · intro raw tok htok c hc
    obtain ⟨tl, htl, rfl⟩ := List.mem_map.1 htok
    have hc' : c ∈ tl := hc
    have h1 : c ∈ (cleanText raw).toList := by
      rcases tokenizeWAux_chars (cleanText raw).toList [] tl htl c hc' with h | h
      · simp at h
      · exact h
    have h2 : c = ' ' ∨ c ∈ removeDigits (removeSuf (raw.toList.map Char.toLower)) :=
      bracketSub_chars _ c h1
    rcases h2 with rfl | h3
    · exact ⟨by decide, by decide⟩
    · constructor
      · have h4 : c ∈ removeSuf (raw.toList.map Char.toLower) :=
          List.mem_of_mem_filter h3
        have h5 : c ∈ raw.toList.map Char.toLower := removeSuf_subset _ c h4
        obtain ⟨c0, _, rfl⟩ := List.mem_map.1 h5
        exact toLower_not_upper c0
      · have := List.of_mem_filter h3
        simpa using this
  · decide!

/-- C9 witness: a token of a concrete mixed-case text, and its first
character is neither uppercase nor a digit. -/
theorem c9_quita_preprocessing_witness :
    ("ab" ∈ quitaTokens "Ab [cd ef] gh") ∧
    ('a'.isUpper = false ∧ 'a'.isDigit = false) :=
  ⟨by decide!,
   c9_quita_preprocessing.1 "Ab [cd ef] gh" "ab" (by decide!) 'a' (by decide!)⟩

end LingFeat

namespace LingFeat

/-! ## C7: invariants of the type-frequency table -/

/-- Mapping an index function that reads `getD i` over `range l.length`
recovers a plain map over the list. -/
theorem map_range_getD {α β : Type} (d : α) (f : α → β) :
    ∀ l : List α,
      (List.range l.length).map (fun i => f (l.getD i d)) = l.map f
  | [] => by simp
  | x :: xs => by
    rw [List.length_cons, List.range_succ_eq_map, List.map_cons, List.map_map]
    refine congrArg₂ _ rfl ?_
    have h1 : ((fun i => f ((x :: xs).getD i d)) ∘ Nat.succ)
        = (fun i => f (xs.getD i d)) := by
      funext i; simp
    rw [h1, map_range_getD d f xs]

/-- Prefix sums of a list of nonnegative rationals are monotone in the
prefix length. -/
theorem sum_take_le_sum_take :
    ∀ (l : List ℚ), (∀ x ∈ l, 0 ≤ x) →
      ∀ (i j : ℕ), i ≤ j → (l.take i).sum ≤ (l.take j).sum
  | [], _, _, _, _ => by simp
  | x :: xs, h0, 0, j, _ => by
    simp only [List.take_zero, List.sum_nil]
    exact List.sum_nonneg (fun y hy => h0 y (List.take_subset _ _ hy))
  | _ :: _, _, i + 1, 0, hij => absurd hij (by omega)
  | x :: xs, h0, i + 1, j + 1, hij => by
    simp only [List.take_succ_cons, List.sum_cons]
    have := sum_take_le_sum_take xs
      (fun y hy => h0 y (List.mem_cons_of_mem x hy)) i j (by omega)
    linarith

/-- `bumpCount` never returns an empty counter. -/
theorem bumpCount_ne_nil (acc : List (String × ℕ)) (t : String) :
    bumpCount acc t ≠ [] := by
  cases acc with
  | nil => simp [bumpCount]
  | cons p rest =>
    obtain ⟨s, c⟩ := p
    simp only [bumpCount]
    split <;> simp

/-- Folding `bumpCount` preserves nonemptiness of the accumulator. -/
theorem foldl_bumpCount_ne_nil :
    ∀ (toks : List String) (acc : List (String × ℕ)), acc ≠ [] →
      toks.foldl bumpCount acc ≠ []
  | [], _, h => h
  | t :: ts, acc, _ =>
    foldl_bumpCount_ne_nil ts (bumpCount acc t) (bumpCount_ne_nil acc t)

/-- A frequency distribution of a nonempty token list is nonempty. -/
theorem freqDistOf_ne_nil {toks : List String} (h : toks ≠ []) :
    freqDistOf toks ≠ [] := by
  cases toks with
  | nil => exact absurd rfl h
  | cons t ts =>
    show (List.foldl bumpCount [] (t :: ts)) ≠ []
    rw [List.foldl_cons]
    exact foldl_bumpCount_ne_nil ts (bumpCount [] t) (bumpCount_ne_nil [] t)

/-- `bumpCount` preserves positivity of all counts. -/
theorem bumpCount_pos :
    ∀ (acc : List (String × ℕ)), (∀ p ∈ acc, 1 ≤ p.2) →
      ∀ (t : String), ∀ p ∈ bumpCount acc t, 1 ≤ p.2
  | [], _, t, p, hp => by
    simp only [bumpCount, List.mem_singleton] at hp
    subst hp; exact le_refl 1
  | (s, c) :: rest, h, t, p, hp => by
    simp only [bumpCount] at hp
    by_cases hst : s = t
    · rw [if_pos hst] at hp
      rcases List.mem_cons.mp hp with h1 | h1
      · subst h1
        have := h (s, c) (List.mem_cons_self _ _)
        omega
      · exact h p (List.mem_cons_of_mem _ h1)
    · rw [if_neg hst] at hp
      rcases List.mem_cons.mp hp with h1 | h1
      · subst h1; exact h (s, c) (List.mem_cons_self _ _)
      · exact bumpCount_pos rest
          (fun q hq => h q (List.mem_cons_of_mem _ hq)) t p h1

/-- Folding `bumpCount` preserves positivity of all counts. -/
theorem foldl_bumpCount_pos :
    ∀ (toks : List String) (acc : List (String × ℕ)),
      (∀ p ∈ acc, 1 ≤ p.2) → ∀ p ∈ toks.foldl bumpCount acc, 1 ≤ p.2
  | [], _, h => h
  | t :: ts, acc, h =>
    foldl_bumpCount_pos ts (bumpCount acc t) (bumpCount_pos acc h t)

/-- Every count in a frequency distribution is at least one. -/
theorem freqDistOf_pos (toks : List String) :
    ∀ p ∈ freqDistOf toks, 1 ≤ p.2 :=
  foldl_bumpCount_pos toks [] (by simp)

/-- The key column of `bumpCount acc t`: unchanged when `t` is already
a key, extended by `t` at the end otherwise. -/
theorem bumpCount_keys (t : String) :
    ∀ acc : List (String × ℕ),
      (bumpCount acc t).map Prod.fst =
        if t ∈ acc.map Prod.fst then acc.map Prod.fst
        else acc.map Prod.fst ++ [t]
  | [] => by simp [bumpCount]
  | (s, c) :: rest => by
    simp only [bumpCount, List.map_cons]
    by_cases hst : s = t
    · subst hst
      rw [if_pos rfl, List.map_cons, if_pos (List.mem_cons_self _ _)]
    · rw [if_neg hst, List.map_cons, bumpCount_keys t rest]
      by_cases hmem : t ∈ rest.map Prod.fst
      · rw [if_pos hmem, if_pos (List.mem_cons_of_mem _ hmem)]
      · rw [if_neg hmem, if_neg ?_]
        · simp
        · intro hc
          rcases List.mem_cons.mp hc with h1 | h1
          · exact hst h1.symm
          · exact hmem h1

/-- `bumpCount` keeps the key column duplicate-free. -/
theorem bumpCount_keys_nodup {acc : List (String × ℕ)}
    (h : (acc.map Prod.fst).Nodup) (t : String) :
    ((bumpCount acc t).map Prod.fst).Nodup := by
  rw [bumpCount_keys]
  split
  · exact h
  · next hmem =>
    rw [List.nodup_append]
    exact ⟨h, List.nodup_singleton t, by
      intro a ha hat
      rw [List.mem_singleton] at hat
      subst hat
      exact hmem ha⟩

/-- Membership in the key column after `bumpCount`. -/
theorem bumpCount_keys_mem (acc : List (String × ℕ)) (t s : String) :
    s ∈ (bumpCount acc t).map Prod.fst ↔ s = t ∨ s ∈ acc.map Prod.fst := by
  rw [bumpCount_keys]
  split
  · next hmem =>
    constructor
    · exact Or.inr
    · rintro (rfl | h1)
      · exact hmem
      · exact h1
  · simp [or_comm]

/-- Folding `bumpCount` keeps the key column duplicate-free. -/
theorem foldl_bumpCount_keys_nodup :
    ∀ (toks : List String) (acc : List (String × ℕ)),
      (acc.map Prod.fst).Nodup →
        ((toks.foldl bumpCount acc).map Prod.fst).Nodup
  | [], _, h => h
  | t :: ts, acc, h =>
    foldl_bumpCount_keys_nodup ts (bumpCount acc t) (bumpCount_keys_nodup h t)

/-- Membership in the key column after folding `bumpCount`. -/
theorem foldl_bumpCount_keys_mem :
    ∀ (toks : List String) (acc : List (String × ℕ)) (s : String),
      s ∈ (toks.foldl bumpCount acc).map Prod.fst ↔
        s ∈ toks ∨ s ∈ acc.map Prod.fst
  | [], acc, s => by simp
  | t :: ts, acc, s => by
    rw [List.foldl_cons, foldl_bumpCount_keys_mem ts (bumpCount acc t) s,
      bumpCount_keys_mem]
    constructor
    · rintro (h1 | rfl | h1)
      · exact Or.inl (List.mem_cons_of_mem _ h1)
      · exact Or.inl (List.mem_cons_self _ _)
      · exact Or.inr h1
    · rintro (h1 | h1)
      · rcases List.mem_cons.mp h1 with rfl | h2
        · exact Or.inr (Or.inl rfl)
        · exact Or.inl h2
      · exact Or.inr (Or.inr h1)

/-- The keys of a frequency distribution are duplicate-free. -/
theorem freqDistOf_keys_nodup (toks : List String) :
    ((freqDistOf toks).map Prod.fst).Nodup :=
  foldl_bumpCount_keys_nodup toks [] (by simp)

/-- The keys of a frequency distribution are exactly the tokens. -/
theorem freqDistOf_keys_mem (toks : List String) (s : String) :
    s ∈ (freqDistOf toks).map Prod.fst ↔ s ∈ toks := by
  rw [freqDistOf, foldl_bumpCount_keys_mem]
  simp

/-- `insertDesc` produces a permutation of consing. -/
theorem insertDesc_perm (x : String × ℕ) :
    ∀ l : List (String × ℕ), (insertDesc x l).Perm (x :: l)
  | [] => List.Perm.refl _
  | y :: ys => by
    simp only [insertDesc]
    split
    · exact (List.Perm.cons y (insertDesc_perm x ys)).trans
        (List.Perm.swap x y ys)
    · exact List.Perm.refl _

/-- Sorting by descending count is a permutation. -/
theorem sortDescBy_perm :
    ∀ l : List (String × ℕ), (sortDescBy l).Perm l
  | [] => List.Perm.refl _
  | x :: xs =>
    (insertDesc_perm x (sortDescBy xs)).trans
      (List.Perm.cons x (sortDescBy_perm xs))

/-- The total count of a frequency distribution of a nonempty token list
is positive (as a rational). -/
theorem freqDist_sum_pos {toks : List String} (h : toks ≠ []) :
    0 < ((freqDistOf toks).map (fun p => (p.2 : ℚ))).sum := by
  apply List.sum_pos
  · intro x hx
    rcases List.mem_map.mp hx with ⟨p, hp, rfl⟩
    have h1 : 0 < p.2 := freqDistOf_pos toks p hp
    exact_mod_cast h1
  · intro hc
    apply freqDistOf_ne_nil h
    exact List.map_eq_nil_iff.mp hc

/-- The rank column of `getTypeData` is literally `1, 2, …, V`. -/
theorem getTypeData_rank (tagW : String → String) (toks : List String) :
    (getTypeData tagW toks).map QRow.rank =
      List.range' 1 (getTypeData tagW toks).length := by
  simp only [getTypeData, List.map_map, List.length_map, List.length_range]
  rw [List.range'_eq_map_range]
  refine List.map_congr_left ?_
  intro a _
  show a + 1 = 1 + a
  omega

/-- The type column of `getTypeData` is the key column of the sorted
frequency distribution. -/
theorem getTypeData_type (tagW : String → String) (toks : List String) :
    (getTypeData tagW toks).map QRow.type =
      (sortDescBy (freqDistOf toks)).map Prod.fst := by
  simp only [getTypeData, List.map_map]
  exact map_range_getD ("", 0) Prod.fst (sortDescBy (freqDistOf toks))

/-- The cumulative-probability column of `getTypeData`, written as prefix
sums over the sorted distribution. -/
theorem getTypeData_cumProb (tagW : String → String) (toks : List String) :
    (getTypeData tagW toks).map QRow.cumProb =
      (List.range (sortDescBy (freqDistOf toks)).length).map (fun i =>
        (((sortDescBy (freqDistOf toks)).take (i + 1)).map
          (fun p => (p.2 : ℚ) /
            ((freqDistOf toks).map (fun p => (p.2 : ℚ))).sum)).sum) := by
  simp only [getTypeData, List.map_map]
  rfl

set_option maxHeartbeats 1000000 in
/-- The cumulative-probability column is pairwise non-decreasing. -/
theorem getTypeData_cumProb_mono (tagW : String → String) (toks : List String) :
    List.Pairwise (· ≤ ·) ((getTypeData tagW toks).map QRow.cumProb) := by
  have hn0 : 0 ≤ ((freqDistOf toks).map (fun p => (p.2 : ℚ))).sum := by
    apply List.sum_nonneg
    intro x hx
    rcases List.mem_map.mp hx with ⟨p, _, rfl⟩
    exact Nat.cast_nonneg p.2
  rw [getTypeData_cumProb]
  refine List.pairwise_map.mpr ?_
  refine (List.pairwise_lt_range _).imp ?_
  intro a b hab
  rw [List.map_take, List.map_take]
  refine sum_take_le_sum_take _ ?_ (a + 1) (b + 1) (by omega)
  intro x hx
  rcases List.mem_map.mp hx with ⟨p, _, rfl⟩
  exact div_nonneg (Nat.cast_nonneg p.2) hn0

/-- On a nonempty token list the cumulative-probability column ends
exactly at 1. -/
theorem getTypeData_cumProb_last (tagW : String → String)
    {toks : List String} (h : toks ≠ []) :
    ((getTypeData tagW toks).map QRow.cumProb).getLast? = some 1 := by
  have hfd := freqDistOf_ne_nil h
  have hn := freqDist_sum_pos h
  have hs_ne : sortDescBy (freqDistOf toks) ≠ [] := by
    intro hc
    apply hfd
    have hp := sortDescBy_perm (freqDistOf toks)
    rw [hc] at hp
    exact (hp.symm.eq_nil)
  obtain ⟨m, hm⟩ : ∃ m, (sortDescBy (freqDistOf toks)).length = m + 1 := by
    cases hsl : (sortDescBy (freqDistOf toks)).length with
    | zero => exact absurd (List.length_eq_zero.mp hsl) hs_ne
    | succ m => exact ⟨m, rfl⟩
  rw [getTypeData_cumProb, hm, List.range_succ, List.map_append, List.map_cons,
    List.map_nil, List.getLast?_concat]
  have htake : (sortDescBy (freqDistOf toks)).take (m + 1) =
      sortDescBy (freqDistOf toks) := by
    rw [← hm]; exact List.take_length _
  rw [htake]
  have hps : ((sortDescBy (freqDistOf toks)).map (fun p => (p.2 : ℚ))).sum =
      ((freqDistOf toks).map (fun p => (p.2 : ℚ))).sum :=
    ((sortDescBy_perm (freqDistOf toks)).map (fun p => (p.2 : ℚ))).sum_eq
  have hdiv : ∀ p : String × ℕ, (p.2 : ℚ) /
      ((freqDistOf toks).map (fun p => (p.2 : ℚ))).sum =
      (p.2 : ℚ) * (((freqDistOf toks).map (fun p => (p.2 : ℚ))).sum)⁻¹ :=
    fun p => div_eq_mul_inv _ _
  simp only [hdiv]
  rw [List.sum_map_mul_right, hps, mul_inv_cancel₀ hn.ne']

/-- C7: for every nonempty token list, the table built by `getTypeData`
satisfies the invariant: the rank column is (a permutation of, in fact
literally) `1..V`; the type column is duplicate-free and its members are
exactly the tokens, so `V` is the number of distinct types; and the
cumulative-probability column is non-decreasing and ends at exactly 1. -/
theorem c7_type_table_invariant (tagW : String → String) (toks : List String)
    (h : toks ≠ []) :
    ((getTypeData tagW toks).map QRow.rank =
        List.range' 1 (getTypeData tagW toks).length) ∧
    ((getTypeData tagW toks).map QRow.rank).Perm
        (List.range' 1 (getTypeData tagW toks).length) ∧
    ((getTypeData tagW toks).map QRow.type).Nodup ∧
    (∀ s : String, s ∈ (getTypeData tagW toks).map QRow.type ↔ s ∈ toks) ∧
    List.Pairwise (· ≤ ·) ((getTypeData tagW toks).map QRow.cumProb) ∧
    ((getTypeData tagW toks).map QRow.cumProb).getLast? = some 1 := by
  refine ⟨getTypeData_rank tagW toks, ?_, ?_, ?_,
    getTypeData_cumProb_mono tagW toks, getTypeData_cumProb_last tagW h⟩
  · rw [getTypeData_rank]
  · rw [getTypeData_type]
    exact (((sortDescBy_perm (freqDistOf toks)).map Prod.fst).nodup_iff).mpr
      (freqDistOf_keys_nodup toks)
  · intro s
    rw [getTypeData_type,
      ((sortDescBy_perm (freqDistOf toks)).map Prod.fst).mem_iff,
      freqDistOf_keys_mem]

/-- C7 witness: the invariant instantiated at a concrete nonempty token
list; the last cumulative probability there is exactly 1. -/
theorem c7_type_table_invariant_witness :
    (["aa", "bb", "aa"] : List String) ≠ [] ∧
    ((getTypeData tagVB ["aa", "bb", "aa"]).map QRow.cumProb).getLast? =
      some 1 :=
  ⟨by decide,
   (c7_type_table_invariant tagVB ["aa", "bb", "aa"] (by decide)).2.2.2.2.2⟩

end LingFeat

namespace LingFeat

/-! ## C5: bounds for the Gini coefficient -/

/-- `qfDiv` on two exact values with a nonzero denominator is exact
division. -/
theorem qfDiv_val {a b : ℚ} (hb : b ≠ 0) :
    qfDiv (QF.val a) (QF.val b) = QF.val (a / b) := by
  simp only [qfDiv]
  rw [if_neg hb]

/-- `qfSub` on two exact values is exact subtraction. -/
theorem qfSub_val (a b : ℚ) :
    qfSub (QF.val a) (QF.val b) = QF.val (a - b) := by
  simp only [qfSub, qfNeg, qfAdd, sub_eq_add_neg]

/-- Weighted sum with weights `k, k+1, k+2, …` over a list of values (the
`Σ freq·rank` of the Gini formula, one row at a time). -/
def wsumFrom : ℕ → List ℚ → ℚ
  | _, [] => 0
  | k, x :: xs => (k : ℚ) * x + wsumFrom (k + 1) xs

/-- Shifting the starting weight by one adds one copy of the plain sum. -/
theorem wsumFrom_succ :
    ∀ (k : ℕ) (l : List ℚ), wsumFrom (k + 1) l = wsumFrom k l + l.sum
  | _, [] => by simp [wsumFrom]
  | k, x :: xs => by
    simp only [wsumFrom, List.sum_cons, wsumFrom_succ (k + 1) xs]
    push_cast
    ring

/-- For a descending list, twice the weight-1 weighted sum is at most
`(length + 1)` times the plain sum. -/
theorem two_wsum_le :
    ∀ l : List ℚ, List.Pairwise (fun a b => b ≤ a) l →
      2 * wsumFrom 1 l ≤ ((l.length : ℚ) + 1) * l.sum
  | [], _ => by simp [wsumFrom]
  | x :: xs, hp => by
    rcases List.pairwise_cons.mp hp with ⟨hx, hxs⟩
    have ih := two_wsum_le xs hxs
    have hsum : xs.sum ≤ (xs.length : ℚ) * x := by
      have hb := List.sum_le_card_nsmul xs x hx
      simpa [nsmul_eq_mul] using hb
    have hw : wsumFrom 1 (x :: xs) = ((1 : ℕ) : ℚ) * x + wsumFrom (1 + 1) xs :=
      rfl
    rw [hw, wsumFrom_succ 1 xs]
    simp only [List.length_cons, List.sum_cons]
    push_cast
    nlinarith [ih, hsum]

/-- For a nonnegative list and a starting weight of at least one, the
weighted sum dominates the plain sum. -/
theorem sum_le_wsumFrom :
    ∀ l : List ℚ, (∀ x ∈ l, 0 ≤ x) → ∀ k : ℕ, 1 ≤ k →
      l.sum ≤ wsumFrom k l
  | [], _, _, _ => by simp [wsumFrom]
  | x :: xs, h0, k, hk => by
    have hx : 0 ≤ x := h0 x (List.mem_cons_self _ _)
    have ih := sum_le_wsumFrom xs
      (fun y hy => h0 y (List.mem_cons_of_mem _ hy)) (k + 1) (by omega)
    have hk1 : (1 : ℚ) ≤ (k : ℚ) := by exact_mod_cast hk
    have hkx : x ≤ (k : ℚ) * x := le_mul_of_one_le_left hx hk1
    simp only [List.sum_cons, wsumFrom]
    linarith

/-- If the rank column is `k, k+1, …`, then `Σ freq·rank` is the weighted
sum of the frequency column starting at weight `k`. -/
theorem sum_freq_mul_rank :
    ∀ (td : List QRow) (k : ℕ),
      td.map QRow.rank = List.range' k td.length →
      (td.map (fun r => (r.freq : ℚ) * (r.rank : ℚ))).sum =
        wsumFrom k (td.map (fun r => (r.freq : ℚ)))
  | [], _, _ => by simp [wsumFrom]
  | r :: rest, k, h => by
    simp only [List.map_cons, List.length_cons, List.range'_succ] at h
    obtain ⟨hk, ht⟩ := List.cons_eq_cons.mp h
    simp only [List.map_cons, List.sum_cons, wsumFrom]
    rw [sum_freq_mul_rank rest (k + 1) ht, hk]
    ring

/-- C5: for every `QText` whose type table is well formed — rank column
`1..V`, all frequencies at least one and sorted descending, token count
equal to the total frequency, `V` the table length, table nonempty — the
Gini coefficient `(V + 1 − 2·Σ(freq·rank)/N) / V` computed by
`getGiniCoef` is an exact rational lying in `[0, 1]`, and a single-type
table (`V = 1`) gives exactly 0. -/
theorem c5_gini_in_unit_interval (q : QText)
    (h1 : q.typeData.map QRow.rank = List.range' 1 q.typeData.length)
    (h2 : ∀ r ∈ q.typeData, 1 ≤ r.freq)
    (h3 : List.Pairwise (fun a b => b.freq ≤ a.freq) q.typeData)
    (h4 : q.tokenNum = (q.typeData.map QRow.freq).sum)
    (h5 : q.typeNum = q.typeData.length)
    (h6 : q.typeData ≠ []) :
    ∃ g : ℚ, getGiniCoef q = QF.val g ∧ 0 ≤ g ∧ g ≤ 1 ∧
      (q.typeNum = 1 → g = 0) := by
  have hfl_nonneg : ∀ x ∈ q.typeData.map (fun r => (r.freq : ℚ)), 0 ≤ x := by
    intro x hx
    rcases List.mem_map.mp hx with ⟨r, _, rfl⟩
    exact Nat.cast_nonneg r.freq
  have hfl_pos : ∀ x ∈ q.typeData.map (fun r => (r.freq : ℚ)), 0 < x := by
    intro x hx
    rcases List.mem_map.mp hx with ⟨r, hr, rfl⟩
    have h0 : 0 < r.freq := h2 r hr
    exact_mod_cast h0
  have hfl_ne : q.typeData.map (fun r => (r.freq : ℚ)) ≠ [] := by
    intro hc
    exact h6 (List.map_eq_nil_iff.mp hc)
  have hN : (q.tokenNum : ℚ) = (q.typeData.map (fun r => (r.freq : ℚ))).sum := by
    rw [h4, Nat.cast_list_sum, List.map_map]
    rfl
  have hNpos : 0 < (q.tokenNum : ℚ) := by
    rw [hN]
    exact List.sum_pos _ hfl_pos hfl_ne
  have hVpos : 0 < (q.typeNum : ℚ) := by
    have hlen : 0 < q.typeData.length := List.length_pos.mpr h6
    rw [h5]
    exact_mod_cast hlen
  have hs : (q.typeData.map (fun r => (r.freq : ℚ) * (r.rank : ℚ))).sum =
      wsumFrom 1 (q.typeData.map (fun r => (r.freq : ℚ))) :=
    sum_freq_mul_rank q.typeData 1 h1
  have hSN : (q.tokenNum : ℚ) ≤
      (q.typeData.map (fun r => (r.freq : ℚ) * (r.rank : ℚ))).sum := by
    rw [hs, hN]
    exact sum_le_wsumFrom _ hfl_nonneg 1 le_rfl
  have hdesc : List.Pairwise (fun a b : ℚ => b ≤ a)
      (q.typeData.map (fun r => (r.freq : ℚ))) :=
    List.pairwise_map.mpr (h3.imp (fun hab => Nat.cast_le.mpr hab))
  have h2S : 2 * (q.typeData.map (fun r => (r.freq : ℚ) * (r.rank : ℚ))).sum ≤
      ((q.typeNum : ℚ) + 1) * (q.tokenNum : ℚ) := by
    have hub := two_wsum_le _ hdesc
    rw [List.length_map] at hub
    rw [hs, hN, h5]
    exact hub
  have hNne : (q.tokenNum : ℚ) ≠ 0 := hNpos.ne'
  have hVne : (q.typeNum : ℚ) ≠ 0 := hVpos.ne'
  have hg : getGiniCoef q = QF.val
      (((q.typeNum : ℚ) + 1 -
        2 * (q.typeData.map (fun r => (r.freq : ℚ) * (r.rank : ℚ))).sum /
          (q.tokenNum : ℚ)) / (q.typeNum : ℚ)) := by
    simp only [getGiniCoef]
    rw [qfDiv_val hNne, qfSub_val, qfDiv_val hVne]
  refine ⟨_, hg, ?_, ?_, ?_⟩
  · apply div_nonneg _ hVpos.le
    have hd : 2 * (q.typeData.map (fun r => (r.freq : ℚ) * (r.rank : ℚ))).sum /
        (q.tokenNum : ℚ) ≤ (q.typeNum : ℚ) + 1 :=
      (div_le_iff₀ hNpos).mpr h2S
    linarith
  · rw [div_le_one hVpos]
    have hd : (1 : ℚ) ≤
        2 * (q.typeData.map (fun r => (r.freq : ℚ) * (r.rank : ℚ))).sum /
          (q.tokenNum : ℚ) := by
      rw [le_div_iff₀ hNpos]
      linarith
    linarith
  · intro hV1
    obtain ⟨r, hr⟩ := List.length_eq_one.mp (h5.symm.trans hV1)
    have hrank : r.rank = 1 := by
      rw [hr] at h1
      simp only [List.map_cons, List.map_nil, List.length_cons,
        List.length_nil] at h1
      have hr1 : List.range' 1 (0 + 1) = [1] := rfl
      rw [hr1] at h1
      exact (List.cons_eq_cons.mp h1).1
    have hfr : 0 < r.freq := h2 r (by rw [hr]; exact List.mem_cons_self _ _)
    have hfne : (r.freq : ℚ) ≠ 0 := by
      have : 0 < (r.freq : ℚ) := by exact_mod_cast hfr
      exact this.ne'
    have hNr : (q.tokenNum : ℚ) = (r.freq : ℚ) := by
      rw [hN, hr]
      simp
    have hsr : (q.typeData.map (fun r => (r.freq : ℚ) * (r.rank : ℚ))).sum =
        (r.freq : ℚ) := by
      rw [hr]
      simp [hrank]
    have hV : (q.typeNum : ℚ) = 1 := by exact_mod_cast hV1
    rw [hV, hNr, hsr]
    have hdd : (2 : ℚ) * (r.freq : ℚ) / (r.freq : ℚ) = 2 := by
      rw [mul_div_assoc, div_self hfne, mul_one]
    rw [hdd]
    norm_num

/-- C5 witness: at a concrete two-type text the hypotheses hold and the
Gini coefficient is an exact rational in `[0, 1]`. -/
theorem c5_gini_in_unit_interval_witness :
    (mkQuitaText tagVB "aa aa bb").typeData ≠ [] ∧
    ∃ g : ℚ, getGiniCoef (mkQuitaText tagVB "aa aa bb") = QF.val g ∧
      0 ≤ g ∧ g ≤ 1 ∧ ((mkQuitaText tagVB "aa aa bb").typeNum = 1 → g = 0) :=
  ⟨by decide!,
   c5_gini_in_unit_interval (mkQuitaText tagVB "aa aa bb")
     (by decide!) (by decide!) (by decide!) (by decide!) (by decide!)
     (by decide!)⟩

end LingFeat

namespace LingFeat

/-! ## C4: the h-point rule -/

/-- The `r1 = np.sum(freq > rank)` count inside `getHPoint`. -/
def hPointR1 (q : QText) : ℕ :=
  (q.typeData.map (fun r => (r.freq, r.rank))).countP (fun p => p.2 < p.1)

/-- `findIdx` on a list containing a match: the result is in range, points
at a match, and everything before it is not a match. -/
theorem findIdx_facts {α : Type} (p : α → Bool) (d : α) :
    ∀ l : List α, (∃ x ∈ l, p x = true) →
      l.findIdx p < l.length ∧
      p (l.getD (l.findIdx p) d) = true ∧
      ∀ j, j < l.findIdx p → p (l.getD j d) = false
  | [], h => absurd h (by simp)
  | x :: xs, h => by
    rw [List.findIdx_cons]
    cases hx : p x with
    | true =>
      refine ⟨by simp [hx], by simp [hx], ?_⟩
      intro j hj
      simp at hj
    | false =>
      have hex : ∃ y ∈ xs, p y = true := by
        rcases h with ⟨y, hy, hpy⟩
        rcases List.mem_cons.mp hy with rfl | hy2
        · rw [hx] at hpy
          exact absurd hpy (by simp)
        · exact ⟨y, hy2, hpy⟩
      obtain ⟨ih1, ih2, ih3⟩ := findIdx_facts p d xs hex
      refine ⟨?_, ?_, ?_⟩
      · simp only [cond_false, List.length_cons]
        omega
      · simpa using ih2
      · intro j hj
        simp only [cond_false] at hj
        cases j with
        | zero => simpa using hx
        | succ j => simpa using ih3 j (by omega)

/-- Under the rank invariant started at `s`, the row at index `i` has
rank `s + i`. -/
theorem rank_at_index_from :
    ∀ (td : List QRow) (s : ℕ),
      td.map QRow.rank = List.range' s td.length →
      ∀ (i : ℕ) (hi : i < td.length), (td.get ⟨i, hi⟩).rank = s + i
  | [], _, _, i, hi => absurd hi (by simp)
  | r :: rest, s, h, 0, _ => by
    simp only [List.map_cons, List.length_cons, List.range'_succ] at h
    have h1 := (List.cons_eq_cons.mp h).1
    show r.rank = s + 0
    omega
  | r :: rest, s, h, i + 1, hi => by
    simp only [List.map_cons, List.length_cons, List.range'_succ] at h
    obtain ⟨h1, h2⟩ := List.cons_eq_cons.mp h
    have hi2 : i < rest.length := Nat.lt_of_succ_lt_succ hi
    have hrec := rank_at_index_from rest (s + 1) h2 i hi2
    have hrec2 : ((r :: rest).get ⟨i + 1, hi⟩).rank = s + 1 + i := hrec
    omega

/-- Reading the freq/rank pair list at an index picks the row there. -/
theorem getD_map_pair :
    ∀ (l : List QRow) (i : ℕ), i < l.length → ∀ (d : ℕ × ℕ) (hi : i < l.length),
      (l.map (fun r => (r.freq, r.rank))).getD i d =
        ((l.get ⟨i, hi⟩).freq, (l.get ⟨i, hi⟩).rank)
  | _ :: _, 0, _, _, _ => rfl
  | _ :: rest, i + 1, h, d, _ =>
    getD_map_pair rest i (Nat.lt_of_succ_lt_succ h) d (Nat.lt_of_succ_lt_succ h)

/-- Under the rank invariant, looking up the frequency at a present rank
(`1 ≤ r ≤ V`) succeeds and returns the frequency of a row of that rank. -/
theorem freqAtRank_ok (q : QText)
    (hrank : q.typeData.map QRow.rank = List.range' 1 q.typeData.length)
    (r : ℕ) (hge : 1 ≤ r) (hle : r ≤ q.typeData.length) :
    ∃ f : ℕ, freqAtRank q r = .ok f ∧
      ∃ row ∈ q.typeData, row.rank = r ∧ row.freq = f := by
  have hi : r - 1 < q.typeData.length := by omega
  have hr1 : (q.typeData.get ⟨r - 1, hi⟩).rank = r := by
    have := rank_at_index_from q.typeData 1 hrank (r - 1) hi
    omega
  cases hf : q.typeData.find? (fun row => row.rank = r) with
  | none =>
    exfalso
    have hall := List.find?_eq_none.mp hf
    have h2 := hall (q.typeData.get ⟨r - 1, hi⟩) (List.get_mem _ _ _)
    exact h2 (decide_eq_true hr1)
  | some row =>
    have hmem := List.mem_of_find?_eq_some hf
    have hpred := List.find?_some hf
    have hrr : row.rank = r := by simpa using hpred
    refine ⟨row.freq, ?_, row, hmem, hrr, rfl⟩
    simp only [freqAtRank, hf]

/-- Under the rank invariant, looking up the frequency at an absent rank
(`0` or beyond `V`) raises `IndexError`. -/
theorem freqAtRank_err (q : QText)
    (hrank : q.typeData.map QRow.rank = List.range' 1 q.typeData.length)
    (r : ℕ) (h : r = 0 ∨ q.typeData.length < r) :
    freqAtRank q r = .error .indexError := by
  have hnone : q.typeData.find? (fun row => row.rank = r) = none := by
    rw [List.find?_eq_none]
    intro row hrow
    have hmemrk : row.rank ∈ q.typeData.map QRow.rank :=
      List.mem_map_of_mem _ hrow
    rw [hrank] at hmemrk
    have hb := List.mem_range'_1.mp hmemrk
    intro hc
    have hcr : row.rank = r := of_decide_eq_true hc
    omega
  simp only [freqAtRank, hnone]

/-- When no row is an exact h-point, `getHPoint` reduces to the two rank
lookups followed by the interpolation formula. -/
theorem getHPoint_of_no_exact (q : QText)
    (hne : ∀ row ∈ q.typeData, row.freq ≠ row.rank) :
    getHPoint q =
      freqAtRank q (hPointR1 q) >>= (fun f1 =>
        freqAtRank q (hPointR1 q + 1) >>= (fun f2 =>
          pure (qfDiv
            (.val ((f1 : ℚ) * ((hPointR1 q + 1 : ℕ) : ℚ) -
                   (f2 : ℚ) * ((hPointR1 q : ℕ) : ℚ)))
            (.val (((hPointR1 q + 1 : ℕ) : ℚ) - ((hPointR1 q : ℕ) : ℚ) +
                   (f1 : ℚ) - (f2 : ℚ)))))) := by
  have hany : (q.typeData.map (fun r => (r.freq, r.rank))).any
      (fun p => p.1 = p.2) = false := by
    apply List.any_eq_false.mpr
    intro x hx
    rcases List.mem_map.mp hx with ⟨row, hrow, rfl⟩
    first
      | exact decide_eq_false (hne row hrow)
      | simp only [decide_eq_true_eq]; exact hne row hrow
  simp only [getHPoint]
  rw [if_neg (by simp [hany])]
  rfl

/-- C4 (amended): under the rank invariant `1..V`, `getHPoint` follows the
exact-match rule first — if some row has `freq = rank` it returns the rank
of the first such row; otherwise, with `r1 = count(freq > rank)`: when
`1 ≤ r1 < V` it returns the spec's interpolation formula built from the
frequencies `f1, f2` of the rows of ranks `r1` and `r2 = r1 + 1`, but when
`r1 = 0` or `r1 = V` (contrary to the claim, which promises the
interpolation on every table with `V ≥ 1, N ≥ 1`) the rank lookup fails
and it raises `IndexError`. -/
theorem c4_hpoint_rule (q : QText)
    (hrank : q.typeData.map QRow.rank = List.range' 1 q.typeData.length) :
    ((∃ row ∈ q.typeData, row.freq = row.rank) →
      ∃ row ∈ q.typeData, row.freq = row.rank ∧
        getHPoint q = .ok (.val (row.rank : ℚ)) ∧
        ∀ row2 ∈ q.typeData, row2.freq = row2.rank → row.rank ≤ row2.rank) ∧
    ((∀ row ∈ q.typeData, row.freq ≠ row.rank) →
      1 ≤ hPointR1 q → hPointR1 q < q.typeData.length →
      ∃ f1 f2 : ℕ,
        freqAtRank q (hPointR1 q) = .ok f1 ∧
        freqAtRank q (hPointR1 q + 1) = .ok f2 ∧
        (∃ row ∈ q.typeData, row.rank = hPointR1 q ∧ row.freq = f1) ∧
        (∃ row ∈ q.typeData, row.rank = hPointR1 q + 1 ∧ row.freq = f2) ∧
        getHPoint q = .ok (qfDiv
          (.val ((f1 : ℚ) * ((hPointR1 q + 1 : ℕ) : ℚ) -
                 (f2 : ℚ) * ((hPointR1 q : ℕ) : ℚ)))
          (.val (((hPointR1 q + 1 : ℕ) : ℚ) - ((hPointR1 q : ℕ) : ℚ) +
                 (f1 : ℚ) - (f2 : ℚ))))) ∧
    ((∀ row ∈ q.typeData, row.freq ≠ row.rank) →
      (hPointR1 q = 0 ∨ hPointR1 q = q.typeData.length) →
      getHPoint q = .error .indexError) := by
  refine ⟨?_, ?_, ?_⟩
  · intro hex
    obtain ⟨row0, hrow0, heq0⟩ := hex
    have hex2 : ∃ x ∈ q.typeData.map (fun r => (r.freq, r.rank)),
        (fun p : ℕ × ℕ => decide (p.1 = p.2)) x = true :=
      ⟨(row0.freq, row0.rank), List.mem_map_of_mem _ hrow0,
       decide_eq_true heq0⟩
    obtain ⟨hlt, hp, hmin⟩ := findIdx_facts (fun p : ℕ × ℕ => decide (p.1 = p.2))
      (0, 0) (q.typeData.map (fun r => (r.freq, r.rank))) hex2
    rw [List.length_map] at hlt
    rw [getD_map_pair q.typeData _ hlt (0, 0) hlt] at hp
    have hfr : (q.typeData.get ⟨_, hlt⟩).freq = (q.typeData.get ⟨_, hlt⟩).rank :=
      of_decide_eq_true hp
    have hrk := rank_at_index_from q.typeData 1 hrank _ hlt
    have hval : getHPoint q = .ok (.val
        (((q.typeData.map (fun r => (r.freq, r.rank))).findIdx
          (fun p => p.1 = p.2) + 1 : ℕ) : ℚ)) := by
      simp only [getHPoint]
      rw [if_pos (List.any_eq_true.mpr hex2)]
    refine ⟨q.typeData.get ⟨_, hlt⟩, List.get_mem _ _ _, hfr, ?_, ?_⟩
    · rw [hval, hrk]
      push_cast
      ring_nf
    · intro row2 h2mem h2eq
      obtain ⟨⟨j, hj⟩, hget⟩ := List.mem_iff_get.mp h2mem
      have hj2 : (q.typeData.get ⟨j, hj⟩).rank = 1 + j :=
        rank_at_index_from q.typeData 1 hrank j hj
      by_cases hcmp : j < (q.typeData.map (fun r => (r.freq, r.rank))).findIdx
          (fun p => p.1 = p.2)
      · exfalso
        have hfalse := hmin j hcmp
        rw [getD_map_pair q.typeData j hj (0, 0) hj] at hfalse
        have : decide ((q.typeData.get ⟨j, hj⟩).freq =
            (q.typeData.get ⟨j, hj⟩).rank) = true :=
          decide_eq_true (by rw [hget]; exact h2eq)
        rw [this] at hfalse
        exact Bool.noConfusion hfalse
      · rw [← hget]
        omega
  · intro hne hge hlt
    obtain ⟨f1, hf1, row1, hm1, hr1, hq1⟩ :=
      freqAtRank_ok q hrank (hPointR1 q) hge (le_of_lt hlt)
    obtain ⟨f2, hf2, row2, hm2, hr2, hq2⟩ :=
      freqAtRank_ok q hrank (hPointR1 q + 1) (by omega) (by omega)
    refine ⟨f1, f2, hf1, hf2, ⟨row1, hm1, hr1, hq1⟩, ⟨row2, hm2, hr2, hq2⟩, ?_⟩
    rw [getHPoint_of_no_exact q hne, hf1, exceptOk_bind, hf2, exceptOk_bind,
      exceptPure]
  · intro hne hcase
    rcases hcase with h0 | hV
    · have herr : freqAtRank q (hPointR1 q) = .error .indexError :=
        freqAtRank_err q hrank _ (Or.inl h0)
      rw [getHPoint_of_no_exact q hne, herr, exceptError_bind]
    · by_cases hV0 : q.typeData.length = 0
      · have herr : freqAtRank q (hPointR1 q) = .error .indexError :=
          freqAtRank_err q hrank _ (Or.inl (by omega))
        rw [getHPoint_of_no_exact q hne, herr, exceptError_bind]
      · obtain ⟨f1, hf1, _, _, _, _⟩ :=
          freqAtRank_ok q hrank (hPointR1 q) (by omega) (by omega)
        have herr2 : freqAtRank q (hPointR1 q + 1) = .error .indexError :=
          freqAtRank_err q hrank _ (Or.inr (by omega))
        rw [getHPoint_of_no_exact q hne, hf1, exceptOk_bind, herr2,
          exceptError_bind]

/-- C4 counterexample: a table with `V = 1`, `N = 5` (raw text of five
equal tokens) has no exact h-point, and `getHPoint` raises `IndexError`
instead of returning the interpolation the claim promises for every table
with `V ≥ 1, N ≥ 1` (the rank `r2 = 2` does not exist). -/
theorem c4_no_interpolation_counterexample :
    getHPoint (mkQuitaText tagNN "e e e e e") = .error .indexError ∧
    (mkQuitaText tagNN "e e e e e").typeNum = 1 ∧
    (mkQuitaText tagNN "e e e e e").tokenNum = 5 ∧
    isExactHPoint (mkQuitaText tagNN "e e e e e") = false := by
  refine ⟨?_, ?_, ?_, ?_⟩ <;> decide!

/-- C4 witness: the boundary branch of the amended rule applied to the
concrete five-equal-token text. -/
theorem c4_hpoint_rule_witness :
    getHPoint (mkQuitaText tagNN "e e e e e") = .error .indexError :=
  (c4_hpoint_rule (mkQuitaText tagNN "e e e e e") (by decide!)).2.2
    (by decide!) (by decide!)

end LingFeat
